import Mathlib

set_option autoImplicit false

/-!
Verification of the kopi host-function binding and value-marshalling layer.

The engine (V8) is modelled through the observations the binding code makes of
it.  Numeric payloads of engine "number" values are represented as exact
rationals: every number the conversion layer constructs from a native integer
lies inside the safe-integer range, where the engine's double representation
is exact, so no rounding behaviour is lost by this choice (NaN and the
infinities never arise on these code paths and are outside the model).
-/

namespace Kopi

/-! ## Range constants of the native integer types -/

def i32_MIN : Int := -(2 ^ 31)

def i32_MAX : Int := 2 ^ 31 - 1

def u32_MAX : Int := 2 ^ 32 - 1

def i64_MIN : Int := -(2 ^ 63)

def i64_MAX : Int := 2 ^ 63 - 1

def u64_MAX : Int := 2 ^ 64 - 1

/-- `MAX_SAFE_INTEGER` from `serialization/serialize_impl.rs`: `2i64.pow(53) - 1`. -/
def MAX_SAFE_INTEGER : Int := 2 ^ 53 - 1

/-- `MIN_SAFE_INTEGER` from `serialization/serialize_impl.rs`: `-(2i64.pow(53) - 1)`. -/
def MIN_SAFE_INTEGER : Int := -(2 ^ 53 - 1)

theorem MAX_SAFE_INTEGER_eq : MAX_SAFE_INTEGER = 9007199254740991 := by decide

theorem MIN_SAFE_INTEGER_eq : MIN_SAFE_INTEGER = -9007199254740991 := by decide

/-! ## Engine values

An engine value as observable through the bindings.  The `integer` and
`number` constructors record which constructor the binding code used
(`v8::Integer::new` / `new_from_unsigned` versus `v8::Number::new`); all
observation functions below treat them uniformly by their numeric value,
exactly as V8 does (`IsInt32`, `IsUint32` and the `Local` casts are
value-based, not representation-based). -/

inductive EngineValue where
  | undefined
  | boolean (b : Bool)
  | integer (n : Int)
  | number (q : ℚ)
  | bigint (n : Int)
  | str (s : String)
  | errorObj (msg : String)
  | objectLike
  deriving Repr, DecidableEq

/-- The exact integer denoted by a value, when it is a number with an integral
value (this is what V8's `IsInt32` / `IsUint32` checks inspect). -/
def EngineValue.intValue? : EngineValue → Option Int
  | .integer n => some n
  | .number q => if q.den = 1 then some q.num else none
  | _ => none

/-- V8 `Local<Integer>` cast (rusty_v8: succeeds iff `is_int32() || is_uint32()`);
`Integer::value()` returns the value as an `i64`. -/
def Integer_try_from (v : EngineValue) : Option Int :=
  match v.intValue? with
  | some n =>
      if (i32_MIN ≤ n ∧ n ≤ i32_MAX) ∨ (0 ≤ n ∧ n ≤ u32_MAX) then some n else none
  | none => none

/-- V8 `Local<Int32>` cast (succeeds iff `is_int32()`). -/
def Int32_try_from (v : EngineValue) : Option Int :=
  match v.intValue? with
  | some n => if i32_MIN ≤ n ∧ n ≤ i32_MAX then some n else none
  | none => none

/-- V8 `Local<Uint32>` cast (succeeds iff `is_uint32()`). -/
def Uint32_try_from (v : EngineValue) : Option Int :=
  match v.intValue? with
  | some n => if 0 ≤ n ∧ n ≤ u32_MAX then some n else none
  | none => none

/-- V8 `Local<Number>` cast (succeeds iff `is_number()`); `Number::value()`
returns the double. -/
def Number_try_from (v : EngineValue) : Option ℚ :=
  match v with
  | .integer n => some (n : ℚ)
  | .number q => some q
  | _ => none

/-- V8 `Local<Boolean>` cast; `Boolean::value()` is `is_true()`. -/
def Boolean_try_from (v : EngineValue) : Option Bool :=
  match v with
  | .boolean b => some b
  | _ => none

/-- V8 `Local<BigInt>` cast (succeeds iff `is_big_int()`). -/
def BigInt_try_from (v : EngineValue) : Option Int :=
  match v with
  | .bigint n => some n
  | _ => none

/-- `BigInt::i64_value()`: the value reduced into the two's-complement `i64`
range, together with the lossless flag. -/
def BigInt_value_i64 (n : Int) : Int × Bool :=
  (((n + 2 ^ 63) % 2 ^ 64) - 2 ^ 63, decide (i64_MIN ≤ n ∧ n ≤ i64_MAX))

/-- `BigInt::u64_value()`: the value modulo `2^64`, together with the lossless
flag. -/
def BigInt_value_u64 (n : Int) : Int × Bool :=
  (n % 2 ^ 64, decide (0 ≤ n ∧ n ≤ u64_MAX))

/-! ## Rust integer range conversions (`TryFrom` on the primitive types) -/

def i8_try_from (n : Int) : Option Int :=
  if -128 ≤ n ∧ n ≤ 127 then some n else none

def i16_try_from (n : Int) : Option Int :=
  if -32768 ≤ n ∧ n ≤ 32767 then some n else none

def i32_try_from (n : Int) : Option Int :=
  if i32_MIN ≤ n ∧ n ≤ i32_MAX then some n else none

def u8_try_from (n : Int) : Option Int :=
  if 0 ≤ n ∧ n ≤ 255 then some n else none

def u16_try_from (n : Int) : Option Int :=
  if 0 ≤ n ∧ n ≤ 65535 then some n else none

def u32_try_from (n : Int) : Option Int :=
  if 0 ≤ n ∧ n ≤ u32_MAX then some n else none

def u64_try_from (n : Int) : Option Int :=
  if 0 ≤ n ∧ n ≤ u64_MAX then some n else none

/-! ## Type errors -/

/-- `TypeError` from `error.rs`: carries only a message string. -/
structure TypeError where
  msg : String
  deriving Repr, DecidableEq

/-- Modelled from the spec: `to_string_representation` (the wrapper
generation's value-to-string rendering, whose defining module is not under
`src/`) produces a human-readable rendering of the engine value, the engine's
ToString conversion.  The exact text never influences any claim; both
conversion generations use this same function. -/
def jsRender : EngineValue → String
  | .undefined => "undefined"
  | .boolean b => if b then "true" else "false"
  | .integer n => toString n
  | .number q => if q.den = 1 then toString q.num else toString q.num ++ "/" ++ toString q.den
  | .bigint n => toString n
  | .str s => s
  | .errorObj m => m
  | .objectLike => "[object Object]"

/-- `create_type_error` from `error.rs`: message, then the rendering of the
offending value. -/
def create_type_error (msg : String) (v : EngineValue) : TypeError :=
  ⟨msg ++ ": " ++ jsRender v⟩

/-- The value of an `Except` result, discarding the error payload.  Two
conversions agree under this observation exactly when they either return the
same native value or both fail. -/
def resultValue? {ε α : Type} : Except ε α → Option α
  | .ok a => some a
  | .error _ => none

/-! ## Native → engine conversion (`serialization/serialize_impl.rs`) -/

def Integer_new_from_i32 (n : Int) : EngineValue := .integer n

def Integer_new_from_u32 (n : Int) : EngineValue := .integer n

def Number_new (q : ℚ) : EngineValue := .number q

def BigInt_new_from_i64 (n : Int) : EngineValue := .bigint n

def BigInt_new_from_u64 (n : Int) : EngineValue := .bigint n

def Boolean_new (b : Bool) : EngineValue := .boolean b

/-- `impl Serialize for bool`. -/
def serialize_bool (x : Bool) : EngineValue := Boolean_new x

/-- `impl Serialize for i8`. -/
def serialize_i8 (x : Int) : EngineValue := Integer_new_from_i32 x

/-- `impl Serialize for i16`. -/
def serialize_i16 (x : Int) : EngineValue := Integer_new_from_i32 x

/-- `impl Serialize for i32`. -/
def serialize_i32 (x : Int) : EngineValue := Integer_new_from_i32 x

/-- `impl Serialize for i64`: big-integer beyond the safe-integer range, a
number beyond the `i32` range, an engine 32-bit integer otherwise.  The
`self as f64` cast is exact here because the value is within the
safe-integer range; the `self as i32` cast is exact because the value is
within the `i32` range. -/
def serialize_i64 (x : Int) : EngineValue :=
  if x > MAX_SAFE_INTEGER ∨ x < MIN_SAFE_INTEGER then BigInt_new_from_i64 x
  else if x > i32_MAX ∨ x < i32_MIN then Number_new (x : ℚ)
  else Integer_new_from_i32 x

/-- `impl Serialize for u8`. -/
def serialize_u8 (x : Int) : EngineValue := Integer_new_from_u32 x

/-- `impl Serialize for u16`. -/
def serialize_u16 (x : Int) : EngineValue := Integer_new_from_u32 x

/-- `impl Serialize for u32`: unconditionally `Integer::new_from_u32`. -/
def serialize_u32 (x : Int) : EngineValue := Integer_new_from_u32 x

/-- `impl Serialize for u64`: big-integer beyond the safe-integer range, a
number beyond the `u32` range, an engine 32-bit integer otherwise. -/
def serialize_u64 (x : Int) : EngineValue :=
  if x > MAX_SAFE_INTEGER then BigInt_new_from_u64 x
  else if x > u32_MAX then Number_new (x : ℚ)
  else Integer_new_from_u32 x

/-! ## Engine → native conversion, `Deserialize` generation
(`serialization/deserialize_impl.rs`) -/

/-- `impl Deserialize for bool` (the source's error message indeed says "i8"). -/
def deserialize_bool (value : EngineValue) : Except TypeError Bool :=
  match Boolean_try_from value with
  | some val => .ok val
  | none => .error (create_type_error "Value can't be converted to an i8" value)

/-- `impl Deserialize for String`. -/
def deserialize_String (value : EngineValue) : Except TypeError String :=
  .ok (jsRender value)

/-- `impl Deserialize for i8`. -/
def deserialize_i8 (value : EngineValue) : Except TypeError Int :=
  match Integer_try_from value with
  | some val =>
      match i8_try_from val with
      | some v => .ok v
      | none => .error (create_type_error "Value not in range for an i8" value)
  | none =>
      match BigInt_try_from value with
      | some b =>
          let vl := BigInt_value_i64 b
          if !vl.2 then .error (create_type_error "Value not in range for an i8" value)
          else
            match i8_try_from vl.1 with
            | some v => .ok v
            | none => .error (create_type_error "Value not in range for an i8" value)
      | none => .error (create_type_error "Value can't be converted to an i8" value)

/-- `impl Deserialize for i16`. -/
def deserialize_i16 (value : EngineValue) : Except TypeError Int :=
  match Integer_try_from value with
  | some val =>
      match i16_try_from val with
      | some v => .ok v
      | none => .error (create_type_error "Value not in range for an i16" value)
  | none =>
      match BigInt_try_from value with
      | some b =>
          let vl := BigInt_value_i64 b
          if !vl.2 then .error (create_type_error "Value not in range for an i16" value)
          else
            match i16_try_from vl.1 with
            | some v => .ok v
            | none => .error (create_type_error "Value not in range for an i16" value)
      | none => .error (create_type_error "Value can't be converted to an i16" value)

/-- `impl Deserialize for i32`. -/
def deserialize_i32 (value : EngineValue) : Except TypeError Int :=
  match Integer_try_from value with
  | some val =>
      match i32_try_from val with
      | some v => .ok v
      | none => .error (create_type_error "Value not in range for an i32" value)
  | none =>
      match BigInt_try_from value with
      | some b =>
          let vl := BigInt_value_i64 b
          if !vl.2 then .error (create_type_error "Value not in range for an i32" value)
          else
            match i32_try_from vl.1 with
            | some v => .ok v
            | none => .error (create_type_error "Value not in range for an i32" value)
      | none => .error (create_type_error "Value can't be converted to an i32" value)

/-- `impl Deserialize for i64`: the `Integer` branch returns `val.value()`
directly, with no range check. -/
def deserialize_i64 (value : EngineValue) : Except TypeError Int :=
  match Integer_try_from value with
  | some val => .ok val
  | none =>
      match BigInt_try_from value with
      | some b =>
          let vl := BigInt_value_i64 b
          if !vl.2 then .error (create_type_error "Value not in range for an i64" value)
          else .ok vl.1
      | none => .error (create_type_error "Value can't be converted to an i64" value)

/-- `impl Deserialize for u8`. -/
def deserialize_u8 (value : EngineValue) : Except TypeError Int :=
  match Integer_try_from value with
  | some val =>
      match u8_try_from val with
      | some v => .ok v
      | none => .error (create_type_error "Value not in range for an u8" value)
  | none =>
      match BigInt_try_from value with
      | some b =>
          let vl := BigInt_value_u64 b
          if !vl.2 then .error (create_type_error "Value not in range for an u8" value)
          else
            match u8_try_from vl.1 with
            | some v => .ok v
            | none => .error (create_type_error "Value not in range for an u8" value)
      | none => .error (create_type_error "Value can't be converted to an u8" value)

/-- `impl Deserialize for u16`. -/
def deserialize_u16 (value : EngineValue) : Except TypeError Int :=
  match Integer_try_from value with
  | some val =>
      match u16_try_from val with
      | some v => .ok v
      | none => .error (create_type_error "Value not in range for an u16" value)
  | none =>
      match BigInt_try_from value with
      | some b =>
          let vl := BigInt_value_u64 b
          if !vl.2 then .error (create_type_error "Value not in range for an u16" value)
          else
            match u16_try_from vl.1 with
            | some v => .ok v
            | none => .error (create_type_error "Value not in range for an u16" value)
      | none => .error (create_type_error "Value can't be converted to an u16" value)

/-- `impl Deserialize for u32`. -/
def deserialize_u32 (value : EngineValue) : Except TypeError Int :=
  match Integer_try_from value with
  | some val =>
      match u32_try_from val with
      | some v => .ok v
      | none => .error (create_type_error "Value not in range for an u32" value)
  | none =>
      match BigInt_try_from value with
      | some b =>
          let vl := BigInt_value_u64 b
          if !vl.2 then .error (create_type_error "Value not in range for an u32" value)
          else
            match u32_try_from vl.1 with
            | some v => .ok v
            | none => .error (create_type_error "Value not in range for an u32" value)
      | none => .error (create_type_error "Value can't be converted to an u32" value)

/-- `impl Deserialize for u64` (the source's final error message indeed says
"u16"). -/
def deserialize_u64 (value : EngineValue) : Except TypeError Int :=
  match Integer_try_from value with
  | some val =>
      match u64_try_from val with
      | some v => .ok v
      | none => .error (create_type_error "Value not in range for an u64" value)
  | none =>
      match BigInt_try_from value with
      | some b =>
          let vl := BigInt_value_u64 b
          if !vl.2 then .error (create_type_error "Value not in range for an u64" value)
          else .ok vl.1
      | none => .error (create_type_error "Value can't be converted to an u16" value)

/-- `impl Deserialize for f32`: `value.value() as f32`; the `f64 → f32` cast
is passed in as a parameter, since both conversion generations apply the
identical primitive cast. -/
def deserialize_f32 (f32cast : ℚ → ℚ) (value : EngineValue) : Except TypeError ℚ :=
  match Number_try_from value with
  | some q => .ok (f32cast q)
  | none => .error (create_type_error "Value not a f32" value)

/-- `impl Deserialize for f64`. -/
def deserialize_f64 (value : EngineValue) : Except TypeError ℚ :=
  match Number_try_from value with
  | some q => .ok q
  | none => .error (create_type_error "Value not a f64" value)

/-! ## Engine → native conversion, `FromValue` generation
(`value.rs` + `value/from_value_impl.rs`)

The `Value` accessor methods of `value.rs` are the same V8 casts as the
wrapper types above: `try_integer` is the `Local<Integer>` cast,
`try_int32` / `try_uint32` the `Local<Int32>` / `Local<Uint32>` casts,
`try_bigint_as_i64` / `try_bigint_as_u64` the `Local<BigInt>` cast followed by
`i64_value()` / `u64_value()`, and `try_float` the `Local<Number>` cast. -/

def try_integer (v : EngineValue) : Option Int := Integer_try_from v

def try_int32 (v : EngineValue) : Option Int := Int32_try_from v

def try_uint32 (v : EngineValue) : Option Int := Uint32_try_from v

def try_bigint_as_i64 (v : EngineValue) : Option (Int × Bool) :=
  (BigInt_try_from v).map BigInt_value_i64

def try_bigint_as_u64 (v : EngineValue) : Option (Int × Bool) :=
  (BigInt_try_from v).map BigInt_value_u64

def try_float (v : EngineValue) : Option ℚ := Number_try_from v

/-- `Value::to_boolean` from `value.rs`: the engine's ToBoolean conversion. -/
def to_boolean : EngineValue → Bool
  | .undefined => false
  | .boolean b => b
  | .integer n => decide (n ≠ 0)
  | .number q => decide (q ≠ 0)
  | .bigint n => decide (n ≠ 0)
  | .str s => decide (s ≠ "")
  | .errorObj _ => true
  | .objectLike => true

/-- Modelled from the spec: the two-argument `create_type_error` of the
`FromValue` generation (its defining module is not under `src/`): a
`TypeError` carrying the message and a human-readable rendering of the
offending value, like the three-argument variant in `error.rs`. -/
def create_type_error2 (msg : String) (v : EngineValue) : TypeError :=
  ⟨msg ++ ": " ++ jsRender v⟩

/-- `impl FromValue for bool` (`value/from_value_impl.rs`): plain
`value.to_boolean()`, never fails. -/
def from_v8_bool (value : EngineValue) : Except TypeError Bool :=
  .ok (to_boolean value)

/-- `impl FromValue for String` (`value/from_value_impl.rs`):
`value.to_string()`, the engine's ToString conversion. -/
def from_v8_String (value : EngineValue) : Except TypeError String :=
  .ok (jsRender value)

/-- `impl FromValue for i8` (`value/from_value_impl.rs`). -/
def from_v8_i8 (value : EngineValue) : Except TypeError Int :=
  match try_integer value with
  | some val =>
      match i8_try_from val with
      | some v => .ok v
      | none => .error (create_type_error2 "Value not in range for an i8" value)
  | none =>
  match try_int32 value with
  | some val =>
      match i8_try_from val with
      | some v => .ok v
      | none => .error (create_type_error2 "Value not in range for an i8" value)
  | none =>
  match try_uint32 value with
  | some val =>
      match i8_try_from val with
      | some v => .ok v
      | none => .error (create_type_error2 "Value not in range for an i8" value)
  | none =>
  match try_bigint_as_i64 value with
  | some vl =>
      if !vl.2 then .error (create_type_error2 "Value not in range for an i8" value)
      else
        match i8_try_from vl.1 with
        | some v => .ok v
        | none => .error (create_type_error2 "Value not in range for an i8" value)
  | none => .error (create_type_error2 "Value can't be converted to an i8" value)

/-- `impl FromValue for i16` (`value/from_value_impl.rs`). -/
def from_v8_i16 (value : EngineValue) : Except TypeError Int :=
  match try_integer value with
  | some val =>
      match i16_try_from val with
      | some v => .ok v
      | none => .error (create_type_error2 "Value not in range for an i16" value)
  | none =>
  match try_int32 value with
  | some val =>
      match i16_try_from val with
      | some v => .ok v
      | none => .error (create_type_error2 "Value not in range for an i16" value)
  | none =>
  match try_uint32 value with
  | some val =>
      match i16_try_from val with
      | some v => .ok v
      | none => .error (create_type_error2 "Value not in range for an i16" value)
  | none =>
  match try_bigint_as_i64 value with
  | some vl =>
      if !vl.2 then .error (create_type_error2 "Value not in range for an i16" value)
      else
        match i16_try_from vl.1 with
        | some v => .ok v
        | none => .error (create_type_error2 "Value not in range for an i16" value)
  | none => .error (create_type_error2 "Value can't be converted to an i16" value)

/-- `impl FromValue for i32` (`value/from_value_impl.rs`): the `try_int32`
branch returns the value directly. -/
def from_v8_i32 (value : EngineValue) : Except TypeError Int :=
  match try_integer value with
  | some val =>
      match i32_try_from val with
      | some v => .ok v
      | none => .error (create_type_error2 "Value not in range for an i32" value)
  | none =>
  match try_int32 value with
  | some val => .ok val
  | none =>
  match try_uint32 value with
  | some val =>
      match i32_try_from val with
      | some v => .ok v
      | none => .error (create_type_error2 "Value not in range for an i32" value)
  | none =>
  match try_bigint_as_i64 value with
  | some vl =>
      if !vl.2 then .error (create_type_error2 "Value not in range for an i32" value)
      else
        match i32_try_from vl.1 with
        | some v => .ok v
        | none => .error (create_type_error2 "Value not in range for an i32" value)
  | none => .error (create_type_error2 "Value can't be converted to an i32" value)

/-- `impl FromValue for i64` (`value/from_value_impl.rs`): order is integer,
big-integer, int32, uint32. -/
def from_v8_i64 (value : EngineValue) : Except TypeError Int :=
  match try_integer value with
  | some val => .ok val
  | none =>
  match try_bigint_as_i64 value with
  | some vl =>
      if !vl.2 then .error (create_type_error2 "Value not in range for an i64" value)
      else .ok vl.1
  | none =>
  match try_int32 value with
  | some val => .ok val
  | none =>
  match try_uint32 value with
  | some val => .ok val
  | none => .error (create_type_error2 "Value can't be converted to an i64" value)

/-- `impl FromValue for u8` (`value/from_value_impl.rs`). -/
def from_v8_u8 (value : EngineValue) : Except TypeError Int :=
  match try_integer value with
  | some val =>
      match u8_try_from val with
      | some v => .ok v
      | none => .error (create_type_error2 "Value not in range for an u8" value)
  | none =>
  match try_uint32 value with
  | some val =>
      match u8_try_from val with
      | some v => .ok v
      | none => .error (create_type_error2 "Value not in range for an u8" value)
  | none =>
  match try_int32 value with
  | some val =>
      match u8_try_from val with
      | some v => .ok v
      | none => .error (create_type_error2 "Value not in range for an u8" value)
  | none =>
  match try_bigint_as_u64 value with
  | some vl =>
      if !vl.2 then .error (create_type_error2 "Value not in range for an u8" value)
      else
        match u8_try_from vl.1 with
        | some v => .ok v
        | none => .error (create_type_error2 "Value not in range for an u8" value)
  | none => .error (create_type_error2 "Value can't be converted to an u8" value)

/-- `impl FromValue for u16` (`value/from_value_impl.rs`). -/
def from_v8_u16 (value : EngineValue) : Except TypeError Int :=
  match try_integer value with
  | some val =>
      match u16_try_from val with
      | some v => .ok v
      | none => .error (create_type_error2 "Value not in range for an u16" value)
  | none =>
  match try_int32 value with
  | some val =>
      match u16_try_from val with
      | some v => .ok v
      | none => .error (create_type_error2 "Value not in range for an u16" value)
  | none =>
  match try_uint32 value with
  | some val =>
      match u16_try_from val with
      | some v => .ok v
      | none => .error (create_type_error2 "Value not in range for an u16" value)
  | none =>
  match try_bigint_as_u64 value with
  | some vl =>
      if !vl.2 then .error (create_type_error2 "Value not in range for an u16" value)
      else
        match u16_try_from vl.1 with
        | some v => .ok v
        | none => .error (create_type_error2 "Value not in range for an u16" value)
  | none => .error (create_type_error2 "Value can't be converted to an u16" value)

/-- `impl FromValue for u32` (`value/from_value_impl.rs`): the `try_uint32`
branch returns the value directly. -/
def from_v8_u32 (value : EngineValue) : Except TypeError Int :=
  match try_integer value with
  | some val =>
      match u32_try_from val with
      | some v => .ok v
      | none => .error (create_type_error2 "Value not in range for an u32" value)
  | none =>
  match try_uint32 value with
  | some val => .ok val
  | none =>
  match try_int32 value with
  | some val =>
      match u32_try_from val with
      | some v => .ok v
      | none => .error (create_type_error2 "Value not in range for an u32" value)
  | none =>
  match try_bigint_as_u64 value with
  | some vl =>
      if !vl.2 then .error (create_type_error2 "Value not in range for an u32" value)
      else
        match u32_try_from vl.1 with
        | some v => .ok v
        | none => .error (create_type_error2 "Value not in range for an u32" value)
  | none => .error (create_type_error2 "Value can't be converted to an u32" value)

/-- `impl FromValue for u64` (`value/from_value_impl.rs`): order is integer,
big-integer, uint32, int32 (the final error message indeed says "u16"). -/
def from_v8_u64 (value : EngineValue) : Except TypeError Int :=
  match try_integer value with
  | some val =>
      match u64_try_from val with
      | some v => .ok v
      | none => .error (create_type_error2 "Value not in range for an u64" value)
  | none =>
  match try_bigint_as_u64 value with
  | some vl =>
      if !vl.2 then .error (create_type_error2 "Value not in range for an u64" value)
      else .ok vl.1
  | none =>
  match try_uint32 value with
  | some val =>
      match u64_try_from val with
      | some v => .ok v
      | none => .error (create_type_error2 "Value not in range for an u64" value)
  | none =>
  match try_int32 value with
  | some val =>
      match u64_try_from val with
      | some v => .ok v
      | none => .error (create_type_error2 "Value not in range for an u64" value)
  | none => .error (create_type_error2 "Value can't be converted to an u16" value)

/-- `impl FromValue for f32` (`value/from_value_impl.rs`), with the same
`f64 → f32` cast parameter as `deserialize_f32`. -/
def from_v8_f32 (f32cast : ℚ → ℚ) (value : EngineValue) : Except TypeError ℚ :=
  match try_float value with
  | some q => .ok (f32cast q)
  | none => .error (create_type_error2 "Value not a f32" value)

/-- `impl FromValue for f64` (`value/from_value_impl.rs`). -/
def from_v8_f64 (value : EngineValue) : Except TypeError ℚ :=
  match try_float value with
  | some q => .ok q
  | none => .error (create_type_error2 "Value not a f64" value)

/-- Spec-version of the engine-to-native fallback order as claim C3 words it
for target type `i64`: exact integer representation, then 32-bit
signed/unsigned integer, then big-integer (lossless flag), then float (an
integral float value that range-checks into the target). -/
def deserialize_i64_specC3 (value : EngineValue) : Except TypeError Int :=
  match Integer_try_from value with
  | some val => .ok val
  | none =>
  match Int32_try_from value with
  | some val => .ok val
  | none =>
  match Uint32_try_from value with
  | some val => .ok val
  | none =>
  match BigInt_try_from value with
  | some b =>
      let vl := BigInt_value_i64 b
      if !vl.2 then .error (create_type_error "Value not in range for an i64" value)
      else .ok vl.1
  | none =>
  match Number_try_from value with
  | some q =>
      if q.den = 1 ∧ i64_MIN ≤ q.num ∧ q.num ≤ i64_MAX then .ok q.num
      else .error (create_type_error "Value not in range for an i64" value)
  | none => .error (create_type_error "Value can't be converted to an i64" value)

/-! ## Function-call trampoline (`extension.rs`)

The generic closure trampoline produced by `impl_function_arguments`: pull
each positional argument through a converter, stopping at the first failure;
on failure `get_argument` builds an engine `TypeError` object
(`value::Error::new_type_error`) and sets it as the call's return value via
`rv.set`, then the trampoline returns without invoking the native function.
`v8::FunctionCallbackArguments::get` yields `undefined` beyond the actual
argument count, and the default return value of a callback is `undefined`. -/

/-- `value::Error::new_type_error` (`value/error.rs`): builds an engine
TypeError object carrying the message; it does not throw. -/
def new_type_error (msg : String) : EngineValue := .errorObj msg

/-- What a script observes of one native call: either the call completes
normally with a return value, or an exception is thrown at it. -/
inductive ScriptOutcome where
  | normal (rv : EngineValue)
  | thrown (exc : EngineValue)
  deriving Repr, DecidableEq

/-- Result of running a trampoline: the script-visible outcome plus whether
the registered native function body was invoked. -/
structure CallResult where
  outcome : ScriptOutcome
  bodyInvoked : Bool
  deriving Repr, DecidableEq

/-- `get_argument` (`extension.rs`): convert the argument at `pos`; on failure
report the engine TypeError object built from the conversion error's
rendering. -/
def get_argument {α : Type} (conv : EngineValue → Except TypeError α)
    (args : List EngineValue) (pos : Nat) : Except EngineValue α :=
  match conv (args.getD pos .undefined) with
  | .ok a => .ok a
  | .error err => .error (new_type_error err.msg)

/-- The sequential argument-extraction loop of `impl_function_arguments`:
positions `pos, pos+1, …` for the given converters, stopping at the first
failure. -/
def getArgsLoop {α : Type} (convs : List (EngineValue → Except TypeError α))
    (args : List EngineValue) (pos : Nat) : Except EngineValue (List α) :=
  match convs with
  | [] => .ok []
  | c :: rest =>
      match get_argument c args pos with
      | .ok a =>
          match getArgsLoop rest args (pos + 1) with
          | .ok tail => .ok (a :: tail)
          | .error e => .error e
      | .error e => .error e

/-- `set_result` (`extension.rs`): skip entirely when the return type is the
statically-undefined marker, otherwise serialize and set the return value (a
failed serialization sets an engine TypeError object instead). -/
def set_result {β : Type} (ser : β → Except TypeError EngineValue)
    (definedReturn : Bool) (result : β) (rv : EngineValue) : EngineValue :=
  if definedReturn then
    match ser result with
    | .ok v => v
    | .error err => new_type_error err.msg
  else rv

/-- `Extension::v8_func` together with `FunctionArguments::call`: the full
closure trampoline for a call with the given argument converters, native body
and return-value serializer. -/
def v8_func {α β : Type} (convs : List (EngineValue → Except TypeError α))
    (op : List α → β) (ser : β → Except TypeError EngineValue)
    (definedReturn : Bool) (args : List EngineValue) : CallResult :=
  match getArgsLoop convs args 0 with
  | .error e => { outcome := .normal e, bodyInvoked := false }
  | .ok decoded =>
      { outcome := .normal (set_result ser definedReturn (op decoded) .undefined)
        bodyInvoked := true }

/-! ## The per-runtime state slot and its borrow discipline
(`extension.rs::v8_func_with_state`, the `static_function!` and
`fastcall_function!` macros)

All three stateful dispatch paths recover the `RefCell` holding the runtime
state and take `borrow_mut()` for the duration of the single call.  A body is
modelled as a program that can mutate the state and re-enter the engine with
further stateful calls; `RefCell::borrow_mut` panics when a borrow is already
outstanding, modelled as the `none` outcome.  `runTrace` additionally records
the number of outstanding mutable borrows at each native mutation. -/

inductive StatefulProgram (S : Type) where
  | act (f : S → S)
  | seq (p q : StatefulProgram S)
  | nestedCall (p : StatefulProgram S)

/-- Run a body with `d` mutable borrows of the state cell outstanding.
`nestedCall` is a script-triggered re-entrant stateful dispatch: it takes
`borrow_mut()`, which panics (`none`) when a borrow is outstanding, and
otherwise holds the borrow for the duration of the nested call.  The returned
trace lists, for every executed native mutation, the number of outstanding
borrows at that instant. -/
def runTrace {S : Type} : StatefulProgram S → Nat → S → Option (S × List Nat)
  | .act f, d, s => some (f s, [d])
  | .seq p q, d, s =>
      match runTrace p d s with
      | some (s1, t1) =>
          match runTrace q d s1 with
          | some (s2, t2) => some (s2, t1 ++ t2)
          | none => none
      | none => none
  | .nestedCall p, d, s => if d ≠ 0 then none else runTrace p (d + 1) s

/-- A stateful callback dispatched from script level, where no borrow is
outstanding: the trampoline takes the borrow, runs the body, and releases it. -/
def stateDispatch {S : Type} (p : StatefulProgram S) (s : S) : Option (S × List Nat) :=
  runTrace (.nestedCall p) 0 s

/-! ## Errors and the execution entry point (`error.rs`, `runtime.rs`) -/

/-- `Error` from `error.rs`. -/
inductive KError where
  | type (e : TypeError)
  | v8NotInitialized
  | ecmaScript (msg : String)
  | internal (msg : String)
  deriving Repr, DecidableEq

/-- `MAX_STRING_LENGTH` from `value/string.rs` (64-bit): `(1 << 29) - 24`. -/
def MAX_STRING_LENGTH : Nat := 2 ^ 29 - 24

/-- `new_string` from `value/string.rs`: keep the first
`min(MAX_STRING_LENGTH, data.len())` bytes of the UTF-8 data and build the
engine string from them; never an error. -/
def new_string (data : List UInt8) : List UInt8 :=
  data.take (min MAX_STRING_LENGTH data.length)

/-- The engine operations `Runtime::execute` consumes, with script-source and
compiled-script data modelled as byte lists.  `compile` and `run` fail with
the optional caught exception value (`TryCatch::exception()` can in principle
be unset); `messageOf` and `lineOf` are `Exception::create_message` followed
by `Message::get` and `Message::get_line_number`. -/
structure EngineBehavior where
  compile : List UInt8 → Except (Option EngineValue) (List UInt8)
  run : List UInt8 → Except (Option EngineValue) EngineValue
  messageOf : EngineValue → String
  lineOf : EngineValue → Option Nat

/-- `create_error_from_exception` from `error.rs`: `Internal` when no
exception was set, otherwise an `EcmaScript` error carrying the rendered
message and the line number (defaulting to 0). -/
def create_error_from_exception (E : EngineBehavior) (exc : Option EngineValue) : KError :=
  match exc with
  | none => .internal "Exception was not set"
  | some e =>
      .ecmaScript ("'" ++ E.messageOf e ++ "' in line: " ++ toString ((E.lineOf e).getD 0))

/-- `Runtime::execute` (`runtime.rs`): build the engine string from the
source, compile under exception catching, run under exception catching, then
deserialize the resulting value (a conversion failure maps to `Error::Type`). -/
def Runtime_execute {α : Type} (E : EngineBehavior)
    (deser : EngineValue → Except TypeError α) (source : List UInt8) :
    Except KError α :=
  let src := new_string source
  match E.compile src with
  | .error exc => .error (create_error_from_exception E exc)
  | .ok script =>
      match E.run script with
      | .error exc => .error (create_error_from_exception E exc)
      | .ok v =>
          match deser v with
          | .ok a => .ok a
          | .error te => .error (.type te)

/-! ## Extensions and the runtime builder (`extension.rs`, `runtime.rs`)

Declarations are a string-keyed map (`HashMap<String, FunctionDeclaration>`),
modelled as an association list whose `insert` replaces an existing binding.
Function declarations are identified by their calling-convention variant and
an identifier standing for the erased data/callback pointers. -/

inductive FunctionDeclaration where
  | closure (id : Nat)
  | staticFn (id : Nat)
  | fastcall (id : Nat)
  deriving Repr, DecidableEq

/-- `HashMap::insert`: replace the binding for the key if present, otherwise
append a new one. -/
def mapInsert {β : Type} : List (String × β) → String → β → List (String × β)
  | [], k, v => [(k, v)]
  | (k', v') :: rest, k, v =>
      if k' = k then (k, v) :: rest else (k', v') :: mapInsert rest k v

/-- Lookup in the association-list map. -/
def mapLookup {β : Type} : List (String × β) → String → Option β
  | [], _ => none
  | (k', v') :: rest, k => if k' = k then some v' else mapLookup rest k

/-- Number of bindings a map holds for one key. -/
def countKey {β : Type} (m : List (String × β)) (k : String) : Nat :=
  (m.filter (fun kv => kv.1 = k)).length

/-- `Extension` (`extension.rs`): optional namespace, declaration map, and the
retained erased-closure list. -/
structure Extension where
  nspace : Option String
  declarations : List (String × FunctionDeclaration)
  closures : List Nat
  deriving Repr, DecidableEq

/-- `Extension::new`. -/
def Extension.new (ns : Option String) : Extension :=
  { nspace := ns, declarations := [], closures := [] }

/-- `Extension::add_function`: inserts a `Closure` declaration and retains the
arc'd closure. -/
def Extension.add_function (e : Extension) (name : String) (id : Nat) : Extension :=
  { e with
    declarations := mapInsert e.declarations name (.closure id)
    closures := e.closures ++ [id] }

/-- `Extension::add_function_with_state`: inserts a `Closure` declaration
(the callback is leaked instead of retained in `closures`). -/
def Extension.add_function_with_state (e : Extension) (name : String) (id : Nat) :
    Extension :=
  { e with declarations := mapInsert e.declarations name (.closure id) }

/-- `Extension::add_static_function`: inserts a `Static` declaration. -/
def Extension.add_static_function (e : Extension) (name : String) (id : Nat) :
    Extension :=
  { e with declarations := mapInsert e.declarations name (.staticFn id) }

/-- `Extension::add_fastcall_function`: inserts a `Fastcall` declaration. -/
def Extension.add_fastcall_function (e : Extension) (name : String) (id : Nat) :
    Extension :=
  { e with declarations := mapInsert e.declarations name (.fastcall id) }

/-- The four registration entry points, for quantifying over them. -/
inductive AddKind where
  | function
  | functionWithState
  | staticFn
  | fastcall
  deriving Repr, DecidableEq

def applyAdd (e : Extension) (k : AddKind) (name : String) (id : Nat) : Extension :=
  match k with
  | .function => e.add_function name id
  | .functionWithState => e.add_function_with_state name id
  | .staticFn => e.add_static_function name id
  | .fastcall => e.add_fastcall_function name id

/-- The declaration each registration kind stores. -/
def declOf (k : AddKind) (id : Nat) : FunctionDeclaration :=
  match k with
  | .function => .closure id
  | .functionWithState => .closure id
  | .staticFn => .staticFn id
  | .fastcall => .fastcall id

/-- A slot of the constructed global object: either an installed function
(identified by its declaration) or a namespace object holding functions. -/
inductive GlobalSlot where
  | func (d : FunctionDeclaration)
  | nsObject (m : List (String × FunctionDeclaration))
  deriving Repr, DecidableEq

/-- Populating one namespace object: `namespace_object.set(name, function)`
for every drained declaration. -/
def buildNsObject (decls : List (String × FunctionDeclaration)) :
    List (String × FunctionDeclaration) :=
  decls.foldl (fun m nd => mapInsert m nd.1 nd.2) []

/-- Draining one extension's declarations into the global object template:
`global_template.set(name, function)` per declaration. -/
def installDecls (decls : List (String × FunctionDeclaration))
    (m : List (String × GlobalSlot)) : List (String × GlobalSlot) :=
  decls.foldl (fun m nd => mapInsert m nd.1 (.func nd.2)) m

/-- The first loop of `Runtime::new`: every extension without a namespace
drains its declarations into the global object template. -/
def installGlobalTemplate (exts : List Extension) : List (String × GlobalSlot) :=
  exts.foldl (fun m e => if e.nspace = none then installDecls e.declarations m else m) []

/-- The second loop of `Runtime::new`: every namespaced extension, in order,
builds a fresh namespace object from its declarations and binds it on the
global object under its namespace name (overwriting any previous binding of
that name). -/
def installNamespaces (exts : List Extension) (g : List (String × GlobalSlot)) :
    List (String × GlobalSlot) :=
  exts.foldl
    (fun g e =>
      match e.nspace with
      | some ns => mapInsert g ns (.nsObject (buildNsObject e.declarations))
      | none => g) g

/-- The global-object construction of `Runtime::new` (`runtime.rs`): the
global template is populated first, the execution context is created from it,
and the namespace objects are then attached to the global object. -/
def Runtime_new_globals (exts : List Extension) : List (String × GlobalSlot) :=
  installNamespaces exts (installGlobalTemplate exts)

/-! ## Helper lemmas -/

theorem i32_MIN_eq : i32_MIN = -2147483648 := by decide

theorem i32_MAX_eq : i32_MAX = 2147483647 := by decide

theorem u32_MAX_eq : u32_MAX = 4294967295 := by decide

theorem i64_MIN_eq : i64_MIN = -9223372036854775808 := by decide

theorem i64_MAX_eq : i64_MAX = 9223372036854775807 := by decide

theorem u64_MAX_eq : u64_MAX = 18446744073709551615 := by decide

theorem Integer_try_from_int (n : Int)
    (h : (i32_MIN ≤ n ∧ n ≤ i32_MAX) ∨ (0 ≤ n ∧ n ≤ u32_MAX)) :
    Integer_try_from (.integer n) = some n := by
  simp [Integer_try_from, EngineValue.intValue?, h]

theorem intValue?_number_int (n : Int) :
    (EngineValue.number (n : ℚ)).intValue? = some n := by
  simp [EngineValue.intValue?, Rat.den_intCast, Rat.num_intCast]

theorem Integer_try_from_number_int (n : Int)
    (h : (i32_MIN ≤ n ∧ n ≤ i32_MAX) ∨ (0 ≤ n ∧ n ≤ u32_MAX)) :
    Integer_try_from (.number (n : ℚ)) = some n := by
  simp [Integer_try_from, intValue?_number_int, h]

theorem BigInt_value_i64_lossless (n : Int) (h1 : i64_MIN ≤ n) (h2 : n ≤ i64_MAX) :
    BigInt_value_i64 n = (n, true) := by
  rw [i64_MIN_eq] at h1
  rw [i64_MAX_eq] at h2
  unfold BigInt_value_i64
  have hmod : (n + 2 ^ 63) % 2 ^ 64 = n + 2 ^ 63 := by
    apply Int.emod_eq_of_lt <;> norm_num <;> omega
  have hd : decide (i64_MIN ≤ n ∧ n ≤ i64_MAX) = true := by
    rw [i64_MIN_eq, i64_MAX_eq]
    simp only [decide_eq_true_eq]
    omega
  rw [hmod, hd]
  simp only [Prod.mk.injEq, and_true]
  omega

theorem BigInt_value_u64_lossless (n : Int) (h1 : 0 ≤ n) (h2 : n ≤ u64_MAX) :
    BigInt_value_u64 n = (n, true) := by
  rw [u64_MAX_eq] at h2
  unfold BigInt_value_u64
  have hmod : n % 2 ^ 64 = n := by
    apply Int.emod_eq_of_lt <;> norm_num <;> omega
  have hd : decide (0 ≤ n ∧ n ≤ u64_MAX) = true := by
    rw [u64_MAX_eq]
    simp only [decide_eq_true_eq]
    omega
  rw [hmod, hd]

/-! ## Claim C1 -/

/-- Claim C1 (amended): serializing an `i64` yields an engine 32-bit integer
within the `i32` range, a number beyond it up to the safe-integer range, and a
big-integer beyond that, with the number/big-integer switch exactly at the
safe-integer boundary; but for `u64` the integer/number switch sits at the
`u32` range boundary, not the `i32` one. -/
theorem c1_serialize_boundaries :
    (∀ x : Int,
      (i32_MIN ≤ x ∧ x ≤ i32_MAX → serialize_i64 x = EngineValue.integer x) ∧
      ((x < i32_MIN ∨ i32_MAX < x) → MIN_SAFE_INTEGER ≤ x → x ≤ MAX_SAFE_INTEGER →
        serialize_i64 x = EngineValue.number (x : ℚ)) ∧
      ((x < MIN_SAFE_INTEGER ∨ MAX_SAFE_INTEGER < x) →
        serialize_i64 x = EngineValue.bigint x)) ∧
    (∀ x : Int, 0 ≤ x →
      (x ≤ u32_MAX → serialize_u64 x = EngineValue.integer x) ∧
      (u32_MAX < x → x ≤ MAX_SAFE_INTEGER → serialize_u64 x = EngineValue.number (x : ℚ)) ∧
      (MAX_SAFE_INTEGER < x → serialize_u64 x = EngineValue.bigint x)) ∧
    serialize_i64 9007199254740991 = EngineValue.number ((9007199254740991 : Int) : ℚ) ∧
    serialize_i64 9007199254740992 = EngineValue.bigint 9007199254740992 ∧
    serialize_i64 9223372036854775807 = EngineValue.bigint 9223372036854775807 := by
  refine ⟨?_, ?_, by decide, by decide, by decide⟩
  · intro x
    refine ⟨?_, ?_, ?_⟩
    · rintro ⟨h1, h2⟩
      rw [i32_MIN_eq] at h1
      rw [i32_MAX_eq] at h2
      have hA : ¬(x > MAX_SAFE_INTEGER ∨ x < MIN_SAFE_INTEGER) := by
        rw [MAX_SAFE_INTEGER_eq, MIN_SAFE_INTEGER_eq]; omega
      have hB : ¬(x > i32_MAX ∨ x < i32_MIN) := by
        rw [i32_MAX_eq, i32_MIN_eq]; omega
      simp [serialize_i64, hA, hB, Integer_new_from_i32]
    · intro h1 h2 h3
      rw [i32_MIN_eq, i32_MAX_eq] at h1
      rw [MIN_SAFE_INTEGER_eq] at h2
      rw [MAX_SAFE_INTEGER_eq] at h3
      have hA : ¬(x > MAX_SAFE_INTEGER ∨ x < MIN_SAFE_INTEGER) := by
        rw [MAX_SAFE_INTEGER_eq, MIN_SAFE_INTEGER_eq]; omega
      have hB : x > i32_MAX ∨ x < i32_MIN := by
        rw [i32_MAX_eq, i32_MIN_eq]; omega
      simp [serialize_i64, hA, hB, Number_new]
    · intro h1
      have hA : x > MAX_SAFE_INTEGER ∨ x < MIN_SAFE_INTEGER := by
        rw [MAX_SAFE_INTEGER_eq, MIN_SAFE_INTEGER_eq]
        rw [MIN_SAFE_INTEGER_eq, MAX_SAFE_INTEGER_eq] at h1
        omega
      simp [serialize_i64, hA, BigInt_new_from_i64]
  · intro x h0
    refine ⟨?_, ?_, ?_⟩
    · intro h1
      rw [u32_MAX_eq] at h1
      have hA : ¬x > MAX_SAFE_INTEGER := by rw [MAX_SAFE_INTEGER_eq]; omega
      have hB : ¬x > u32_MAX := by rw [u32_MAX_eq]; omega
      simp [serialize_u64, hA, hB, Integer_new_from_u32]
    · intro h1 h2
      rw [u32_MAX_eq] at h1
      rw [MAX_SAFE_INTEGER_eq] at h2
      have hA : ¬x > MAX_SAFE_INTEGER := by rw [MAX_SAFE_INTEGER_eq]; omega
      have hB : x > u32_MAX := by rw [u32_MAX_eq]; omega
      simp [serialize_u64, hA, hB, Number_new]
    · intro h1
      have hA : x > MAX_SAFE_INTEGER := h1
      simp [serialize_u64, hA, BigInt_new_from_u64]

/-- Claim C1 witness: concrete instances of the amended boundary behaviour. -/
theorem c1_serialize_boundaries_witness :
    serialize_i64 3 = EngineValue.integer 3 ∧
    serialize_i64 4294967296 = EngineValue.number ((4294967296 : Int) : ℚ) ∧
    serialize_u64 9007199254741000 = EngineValue.bigint 9007199254741000 :=
  ⟨(c1_serialize_boundaries.1 3).1 (by decide),
   (c1_serialize_boundaries.1 4294967296).2.1 (by decide) (by decide) (by decide),
   ((c1_serialize_boundaries.2.1 9007199254741000 (by decide)).2.2) (by decide)⟩

/-- Claim C1 counterexample: the claim, read for `u64` with the `i32`-range
switch it states, is false — serializing the `u64` value 2147483648
(`i32::MAX + 1`, inside the `u32` range) yields an engine 32-bit integer, not
a number. -/
theorem c1_counterexample :
    serialize_u64 2147483648 = EngineValue.integer 2147483648 ∧
    serialize_u64 2147483648 ≠ EngineValue.number ((2147483648 : Int) : ℚ) := by
  constructor
  · decide
  · decide

/-! ## Claim C2 -/

/-- Claim C2 (amended): serialize-then-deserialize returns the original value
for every representable value of `i8`, `i16`, `i32`, `u8`, `u16` and `u32`,
and for `i64` / `u64` values that serialize to an engine 32-bit integer or to
a big-integer — in particular at the boundaries `i64::MIN`, `i64::MAX` and
`u64::MAX`.  (For `i64` / `u64` values that serialize to a plain number
outside the engine's int32/uint32 ranges the round trip fails; see the
counterexample.) -/
theorem c2_roundtrip :
    (∀ x : Int, -128 ≤ x → x ≤ 127 → deserialize_i8 (serialize_i8 x) = .ok x) ∧
    (∀ x : Int, -32768 ≤ x → x ≤ 32767 → deserialize_i16 (serialize_i16 x) = .ok x) ∧
    (∀ x : Int, i32_MIN ≤ x → x ≤ i32_MAX → deserialize_i32 (serialize_i32 x) = .ok x) ∧
    (∀ x : Int, 0 ≤ x → x ≤ 255 → deserialize_u8 (serialize_u8 x) = .ok x) ∧
    (∀ x : Int, 0 ≤ x → x ≤ 65535 → deserialize_u16 (serialize_u16 x) = .ok x) ∧
    (∀ x : Int, 0 ≤ x → x ≤ u32_MAX → deserialize_u32 (serialize_u32 x) = .ok x) ∧
    (∀ x : Int, i64_MIN ≤ x → x ≤ i64_MAX →
      ((i32_MIN ≤ x ∧ x ≤ u32_MAX) ∨ x < MIN_SAFE_INTEGER ∨ MAX_SAFE_INTEGER < x) →
      deserialize_i64 (serialize_i64 x) = .ok x) ∧
    (∀ x : Int, 0 ≤ x → x ≤ u64_MAX → (x ≤ u32_MAX ∨ MAX_SAFE_INTEGER < x) →
      deserialize_u64 (serialize_u64 x) = .ok x) := by
  refine ⟨?_, ?_, ?_, ?_, ?_, ?_, ?_, ?_⟩
  · intro x h1 h2
    have hr : (i32_MIN ≤ x ∧ x ≤ i32_MAX) ∨ (0 ≤ x ∧ x ≤ u32_MAX) := by
      left; rw [i32_MIN_eq, i32_MAX_eq]; omega
    have hc : -128 ≤ x ∧ x ≤ 127 := ⟨h1, h2⟩
    simp [serialize_i8, Integer_new_from_i32, deserialize_i8,
      Integer_try_from_int x hr, i8_try_from, hc]
  · intro x h1 h2
    have hr : (i32_MIN ≤ x ∧ x ≤ i32_MAX) ∨ (0 ≤ x ∧ x ≤ u32_MAX) := by
      left; rw [i32_MIN_eq, i32_MAX_eq]; omega
    have hc : -32768 ≤ x ∧ x ≤ 32767 := ⟨h1, h2⟩
    simp [serialize_i16, Integer_new_from_i32, deserialize_i16,
      Integer_try_from_int x hr, i16_try_from, hc]
  · intro x h1 h2
    have hr : (i32_MIN ≤ x ∧ x ≤ i32_MAX) ∨ (0 ≤ x ∧ x ≤ u32_MAX) := Or.inl ⟨h1, h2⟩
    have hc : i32_MIN ≤ x ∧ x ≤ i32_MAX := ⟨h1, h2⟩
    simp [serialize_i32, Integer_new_from_i32, deserialize_i32,
      Integer_try_from_int x hr, i32_try_from, hc]
  · intro x h1 h2
    have hr : (i32_MIN ≤ x ∧ x ≤ i32_MAX) ∨ (0 ≤ x ∧ x ≤ u32_MAX) := by
      right; rw [u32_MAX_eq]; omega
    have hc : 0 ≤ x ∧ x ≤ 255 := ⟨h1, h2⟩
    simp [serialize_u8, Integer_new_from_u32, deserialize_u8,
      Integer_try_from_int x hr, u8_try_from, hc]
  · intro x h1 h2
    have hr : (i32_MIN ≤ x ∧ x ≤ i32_MAX) ∨ (0 ≤ x ∧ x ≤ u32_MAX) := by
      right; rw [u32_MAX_eq]; omega
    have hc : 0 ≤ x ∧ x ≤ 65535 := ⟨h1, h2⟩
    simp [serialize_u16, Integer_new_from_u32, deserialize_u16,
      Integer_try_from_int x hr, u16_try_from, hc]
  · intro x h1 h2
    have hr : (i32_MIN ≤ x ∧ x ≤ i32_MAX) ∨ (0 ≤ x ∧ x ≤ u32_MAX) := Or.inr ⟨h1, h2⟩
    have hc : 0 ≤ x ∧ x ≤ u32_MAX := ⟨h1, h2⟩
    simp [serialize_u32, Integer_new_from_u32, deserialize_u32,
      Integer_try_from_int x hr, u32_try_from, hc]
  · intro x hlo hhi hcond
    rcases hcond with ⟨hc1, hc2⟩ | hdown | hup
    · by_cases hx : x ≤ i32_MAX
      · have hA : ¬(x > MAX_SAFE_INTEGER ∨ x < MIN_SAFE_INTEGER) := by
          rw [MAX_SAFE_INTEGER_eq, MIN_SAFE_INTEGER_eq]
          rw [i32_MIN_eq] at hc1
          rw [i32_MAX_eq] at hx
          omega
        have hB : ¬(x > i32_MAX ∨ x < i32_MIN) := by
          rcases hx with _; omega
        have hr : (i32_MIN ≤ x ∧ x ≤ i32_MAX) ∨ (0 ≤ x ∧ x ≤ u32_MAX) := Or.inl ⟨hc1, hx⟩
        simp [serialize_i64, hA, hB, Integer_new_from_i32, deserialize_i64,
          Integer_try_from_int x hr]
      · have hA : ¬(x > MAX_SAFE_INTEGER ∨ x < MIN_SAFE_INTEGER) := by
          rw [MAX_SAFE_INTEGER_eq, MIN_SAFE_INTEGER_eq]
          rw [i32_MIN_eq] at hc1
          rw [u32_MAX_eq] at hc2
          omega
        have hB : x > i32_MAX ∨ x < i32_MIN := by left; omega
        have hr : (i32_MIN ≤ x ∧ x ≤ i32_MAX) ∨ (0 ≤ x ∧ x ≤ u32_MAX) := by
          right
          constructor
          · rw [i32_MAX_eq] at hx; omega
          · exact hc2
        simp [serialize_i64, hA, hB, Number_new, deserialize_i64,
          Integer_try_from_number_int x hr]
    · have hA : x > MAX_SAFE_INTEGER ∨ x < MIN_SAFE_INTEGER := Or.inr hdown
      simp [serialize_i64, hA, BigInt_new_from_i64, deserialize_i64, Integer_try_from,
        EngineValue.intValue?, BigInt_try_from, BigInt_value_i64_lossless x hlo hhi]
    · have hA : x > MAX_SAFE_INTEGER ∨ x < MIN_SAFE_INTEGER := Or.inl hup
      simp [serialize_i64, hA, BigInt_new_from_i64, deserialize_i64, Integer_try_from,
        EngineValue.intValue?, BigInt_try_from, BigInt_value_i64_lossless x hlo hhi]
  · intro x hlo hhi hcond
    rcases hcond with hsmall | hbig
    · have hA : ¬x > MAX_SAFE_INTEGER := by
        rw [MAX_SAFE_INTEGER_eq]
        rw [u32_MAX_eq] at hsmall
        omega
      have hB : ¬x > u32_MAX := by omega
      have hr : (i32_MIN ≤ x ∧ x ≤ i32_MAX) ∨ (0 ≤ x ∧ x ≤ u32_MAX) := Or.inr ⟨hlo, hsmall⟩
      have hc : 0 ≤ x ∧ x ≤ u64_MAX := ⟨hlo, hhi⟩
      simp [serialize_u64, hA, hB, Integer_new_from_u32, deserialize_u64,
        Integer_try_from_int x hr, u64_try_from, hc]
    · have hA : x > MAX_SAFE_INTEGER := hbig
      simp [serialize_u64, hA, BigInt_new_from_u64, deserialize_u64, Integer_try_from,
        EngineValue.intValue?, BigInt_try_from, BigInt_value_u64_lossless x hlo hhi]

/-- Claim C2 witness: round trips at the range boundaries `i64::MIN`,
`i64::MAX`, `u64::MAX` and at an in-band `u32` value. -/
theorem c2_roundtrip_witness :
    deserialize_i64 (serialize_i64 (-9223372036854775808)) = .ok (-9223372036854775808) ∧
    deserialize_i64 (serialize_i64 9223372036854775807) = .ok 9223372036854775807 ∧
    deserialize_u64 (serialize_u64 18446744073709551615) = .ok 18446744073709551615 ∧
    deserialize_u32 (serialize_u32 4294967295) = .ok 4294967295 :=
  ⟨c2_roundtrip.2.2.2.2.2.2.1 (-9223372036854775808) (by decide) (by decide)
      (Or.inr (Or.inl (by decide))),
   c2_roundtrip.2.2.2.2.2.2.1 9223372036854775807 (by decide) (by decide)
      (Or.inr (Or.inr (by decide))),
   c2_roundtrip.2.2.2.2.2.2.2 18446744073709551615 (by decide) (by decide)
      (Or.inr (by decide)),
   c2_roundtrip.2.2.2.2.2.1 4294967295 (by decide) (by decide)⟩

/-- Claim C2 counterexample: the round trip fails for the `i64` value
`2^32 = 4294967296`, which serializes to a plain engine number outside the
int32/uint32 ranges; deserialization then finds no accepted representation
and returns a `TypeError`. -/
theorem c2_counterexample :
    resultValue? (deserialize_i64 (serialize_i64 4294967296)) = none := by
  decide

/-! ## Claim C3 -/

theorem Integer_try_from_eq_some (v : EngineValue) (n : Int)
    (h : Integer_try_from v = some n) : v.intValue? = some n := by
  unfold Integer_try_from at h
  split at h
  next m heq =>
    split at h
    · injection h with h2
      rw [heq, h2]
    · cases h
  next => cases h

theorem BigInt_try_from_eq_some (v : EngineValue) (b : Int)
    (h : BigInt_try_from v = some b) : v = .bigint b := by
  cases v <;> simp_all [BigInt_try_from]

theorem i8_try_from_eq_some (m n : Int) (h : i8_try_from m = some n) :
    m = n ∧ -128 ≤ n ∧ n ≤ 127 := by
  unfold i8_try_from at h
  split at h
  next hc =>
    injection h with h2
    exact ⟨h2, h2 ▸ hc⟩
  next => cases h

theorem BigInt_value_i64_snd_true (b : Int)
    (h : (BigInt_value_i64 b).2 = true) : i64_MIN ≤ b ∧ b ≤ i64_MAX := by
  unfold BigInt_value_i64 at h
  exact of_decide_eq_true h

/-- Soundness of `deserialize_i8`: a successful conversion returns exactly the
numeric value the engine value denotes (no silent truncation), and that value
is within the `i8` range. -/
theorem deserialize_i8_ok (v : EngineValue) (n : Int) (h : deserialize_i8 v = .ok n) :
    (v.intValue? = some n ∨ v = .bigint n) ∧ -128 ≤ n ∧ n ≤ 127 := by
  simp only [deserialize_i8] at h
  split at h
  next val heq =>
    split at h
    next v' heq2 =>
      injection h with h2
      obtain ⟨hm, hr⟩ := i8_try_from_eq_some val v' heq2
      subst h2
      exact ⟨Or.inl (hm ▸ Integer_try_from_eq_some v val heq), hr⟩
    next => cases h
  next =>
    split at h
    next b heq2 =>
      split at h
      next => cases h
      next hcond =>
        split at h
        next v' heq3 =>
          injection h with h2
          have hl : (BigInt_value_i64 b).2 = true := by
            revert hcond
            cases (BigInt_value_i64 b).2 <;> simp
          obtain ⟨hb1, hb2⟩ := BigInt_value_i64_snd_true b hl
          have hfst : (BigInt_value_i64 b).1 = b := by
            rw [BigInt_value_i64_lossless b hb1 hb2]
          obtain ⟨hm, hr⟩ := i8_try_from_eq_some _ v' heq3
          subst h2
          refine ⟨Or.inr ?_, hr⟩
          rw [BigInt_try_from_eq_some v b heq2, ← hm, hfst]
        next => cases h
    next => cases h

/-- Behaviour of `deserialize_i8` on big-integer values: succeeds exactly on
`[-128, 127]`, and fails with the range `TypeError` otherwise. -/
theorem deserialize_i8_bigint (b : Int) :
    deserialize_i8 (.bigint b) =
      if -128 ≤ b ∧ b ≤ 127 then .ok b
      else .error (create_type_error "Value not in range for an i8" (.bigint b)) := by
  by_cases hb : i64_MIN ≤ b ∧ b ≤ i64_MAX
  · simp only [deserialize_i8, Integer_try_from, EngineValue.intValue?, BigInt_try_from,
      BigInt_value_i64_lossless b hb.1 hb.2, Bool.not_true, Bool.false_eq_true, if_false,
      i8_try_from]
    split <;> split <;> simp_all
  · have hl : (BigInt_value_i64 b).2 = false := by
      unfold BigInt_value_i64
      simp only [decide_eq_false_iff_not]
      exact hb
    have hrange : ¬(-128 ≤ b ∧ b ≤ 127) := by
      intro hc
      apply hb
      rw [i64_MIN_eq, i64_MAX_eq]
      omega
    simp only [deserialize_i8, Integer_try_from, EngineValue.intValue?, BigInt_try_from, hl,
      Bool.not_false, if_true, hrange, if_false]

/-- Claim C3 (amended): the engine-to-native conversion attempts extraction in
the fixed order exact-integer representation (which subsumes the 32-bit
signed/unsigned casts) and then big-integer, accepting the big-integer only
when the lossless flag holds and the value range-checks into the target;
there is no final float fallback.  If no representation fits or the value is
out of range it returns a `TypeError` and never silently truncates; a
big-integer deserialized into `i8` succeeds exactly on `[-128, 127]` and
fails with the range `TypeError` otherwise. -/
theorem c3_deserialize_fallback :
    (∀ (v : EngineValue) (n : Int), deserialize_i8 v = .ok n →
      (v.intValue? = some n ∨ v = .bigint n) ∧ -128 ≤ n ∧ n ≤ 127) ∧
    (∀ b : Int,
      (-128 ≤ b → b ≤ 127 → deserialize_i8 (.bigint b) = .ok b) ∧
      ((b < -128 ∨ 127 < b) →
        deserialize_i8 (.bigint b) =
          .error (create_type_error "Value not in range for an i8" (.bigint b)))) ∧
    (∀ v : EngineValue, Integer_try_from v = none → BigInt_try_from v = none →
      deserialize_i8 v =
        .error (create_type_error "Value can't be converted to an i8" v)) := by
  refine ⟨deserialize_i8_ok, ?_, ?_⟩
  · intro b
    constructor
    · intro h1 h2
      rw [deserialize_i8_bigint b, if_pos ⟨h1, h2⟩]
    · intro hout
      rw [deserialize_i8_bigint b, if_neg (by omega)]
  · intro v hI hB
    simp only [deserialize_i8, hI, hB]

/-- Claim C3 witness: a big-integer inside the `i8` range deserializes to its
value, one outside fails with the range `TypeError`, and a plain non-numeric
value fails with the conversion `TypeError`. -/
theorem c3_deserialize_fallback_witness :
    deserialize_i8 (EngineValue.bigint 100) = .ok 100 ∧
    deserialize_i8 (EngineValue.bigint 300) =
      .error (create_type_error "Value not in range for an i8" (EngineValue.bigint 300)) ∧
    deserialize_i8 EngineValue.undefined =
      .error (create_type_error "Value can't be converted to an i8" EngineValue.undefined) :=
  ⟨(c3_deserialize_fallback.2.1 100).1 (by decide) (by decide),
   (c3_deserialize_fallback.2.1 300).2 (by decide),
   c3_deserialize_fallback.2.2 EngineValue.undefined (by decide) (by decide)⟩

/-- Claim C3 counterexample: the fallback order the claim states ends with a
float step, but the code has none — the engine number `2^32` (integral, in
`i64` range, outside the int32/uint32 casts) fails to deserialize into `i64`,
while the claim's order would accept it through the float step. -/
theorem c3_counterexample :
    resultValue? (deserialize_i64 (EngineValue.number ((4294967296 : Int) : ℚ))) = none ∧
    resultValue? (deserialize_i64_specC3 (EngineValue.number ((4294967296 : Int) : ℚ))) =
      some 4294967296 := by
  constructor <;> decide

/-! ## Claim C10 -/

theorem Int32_try_from_none (v : EngineValue) (h : Integer_try_from v = none) :
    Int32_try_from v = none := by
  unfold Integer_try_from at h
  unfold Int32_try_from
  split at h
  next m heq =>
    split at h
    next => cases h
    next hc =>
      rw [if_neg]
      intro hc2
      exact hc (Or.inl hc2)
  next heq => rfl

theorem Uint32_try_from_none (v : EngineValue) (h : Integer_try_from v = none) :
    Uint32_try_from v = none := by
  unfold Integer_try_from at h
  unfold Uint32_try_from
  split at h
  next m heq =>
    split at h
    next => cases h
    next hc =>
      rw [if_neg]
      intro hc2
      exact hc (Or.inr hc2)
  next heq => rfl

theorem agree_i8 (v : EngineValue) :
    resultValue? (deserialize_i8 v) = resultValue? (from_v8_i8 v) := by
  simp only [deserialize_i8, from_v8_i8, try_integer, try_int32, try_uint32,
    try_bigint_as_i64]
  rcases hI : Integer_try_from v with _ | val
  · simp only [hI, Int32_try_from_none v hI, Uint32_try_from_none v hI]
    rcases hB : BigInt_try_from v with _ | b
    · simp [hB, resultValue?]
    · simp only [hB, Option.map]
      cases hl : (BigInt_value_i64 b).2
      · simp [hl, resultValue?]
      · rcases hr : i8_try_from (BigInt_value_i64 b).1 with _ | m <;> simp [hl, hr, resultValue?]
  · simp only [hI]
    split <;> simp [resultValue?]

theorem agree_i16 (v : EngineValue) :
    resultValue? (deserialize_i16 v) = resultValue? (from_v8_i16 v) := by
  simp only [deserialize_i16, from_v8_i16, try_integer, try_int32, try_uint32,
    try_bigint_as_i64]
  rcases hI : Integer_try_from v with _ | val
  · simp only [hI, Int32_try_from_none v hI, Uint32_try_from_none v hI]
    rcases hB : BigInt_try_from v with _ | b
    · simp [hB, resultValue?]
    · simp only [hB, Option.map]
      cases hl : (BigInt_value_i64 b).2
      · simp [hl, resultValue?]
      · rcases hr : i16_try_from (BigInt_value_i64 b).1 with _ | m <;> simp [hl, hr, resultValue?]
  · simp only [hI]
    split <;> simp [resultValue?]

theorem agree_i32 (v : EngineValue) :
    resultValue? (deserialize_i32 v) = resultValue? (from_v8_i32 v) := by
  simp only [deserialize_i32, from_v8_i32, try_integer, try_int32, try_uint32,
    try_bigint_as_i64]
  rcases hI : Integer_try_from v with _ | val
  · simp only [hI, Int32_try_from_none v hI, Uint32_try_from_none v hI]
    rcases hB : BigInt_try_from v with _ | b
    · simp [hB, resultValue?]
    · simp only [hB, Option.map]
      cases hl : (BigInt_value_i64 b).2
      · simp [hl, resultValue?]
      · rcases hr : i32_try_from (BigInt_value_i64 b).1 with _ | m <;> simp [hl, hr, resultValue?]
  · simp only [hI]
    split <;> simp [resultValue?]

theorem agree_i64 (v : EngineValue) :
    resultValue? (deserialize_i64 v) = resultValue? (from_v8_i64 v) := by
  simp only [deserialize_i64, from_v8_i64, try_integer, try_int32, try_uint32,
    try_bigint_as_i64]
  rcases hI : Integer_try_from v with _ | val
  · simp only [hI, Int32_try_from_none v hI, Uint32_try_from_none v hI]
    rcases hB : BigInt_try_from v with _ | b
    · simp [hB, resultValue?]
    · simp only [hB, Option.map]
      cases hl : (BigInt_value_i64 b).2 <;>
        simp [hl, resultValue?]
  · simp [hI, resultValue?]

theorem agree_u8 (v : EngineValue) :
    resultValue? (deserialize_u8 v) = resultValue? (from_v8_u8 v) := by
  simp only [deserialize_u8, from_v8_u8, try_integer, try_int32, try_uint32,
    try_bigint_as_u64]
  rcases hI : Integer_try_from v with _ | val
  · simp only [hI, Int32_try_from_none v hI, Uint32_try_from_none v hI]
    rcases hB : BigInt_try_from v with _ | b
    · simp [hB, resultValue?]
    · simp only [hB, Option.map]
      cases hl : (BigInt_value_u64 b).2
      · simp [hl, resultValue?]
      · rcases hr : u8_try_from (BigInt_value_u64 b).1 with _ | m <;> simp [hl, hr, resultValue?]
  · simp only [hI]
    split <;> simp [resultValue?]

theorem agree_u16 (v : EngineValue) :
    resultValue? (deserialize_u16 v) = resultValue? (from_v8_u16 v) := by
  simp only [deserialize_u16, from_v8_u16, try_integer, try_int32, try_uint32,
    try_bigint_as_u64]
  rcases hI : Integer_try_from v with _ | val
  · simp only [hI, Int32_try_from_none v hI, Uint32_try_from_none v hI]
    rcases hB : BigInt_try_from v with _ | b
    · simp [hB, resultValue?]
    · simp only [hB, Option.map]
      cases hl : (BigInt_value_u64 b).2
      · simp [hl, resultValue?]
      · rcases hr : u16_try_from (BigInt_value_u64 b).1 with _ | m <;> simp [hl, hr, resultValue?]
  · simp only [hI]
    split <;> simp [resultValue?]

theorem agree_u32 (v : EngineValue) :
    resultValue? (deserialize_u32 v) = resultValue? (from_v8_u32 v) := by
  simp only [deserialize_u32, from_v8_u32, try_integer, try_int32, try_uint32,
    try_bigint_as_u64]
  rcases hI : Integer_try_from v with _ | val
  · simp only [hI, Int32_try_from_none v hI, Uint32_try_from_none v hI]
    rcases hB : BigInt_try_from v with _ | b
    · simp [hB, resultValue?]
    · simp only [hB, Option.map]
      cases hl : (BigInt_value_u64 b).2
      · simp [hl, resultValue?]
      · rcases hr : u32_try_from (BigInt_value_u64 b).1 with _ | m <;> simp [hl, hr, resultValue?]
  · simp only [hI]
    split <;> simp [resultValue?]

theorem agree_u64 (v : EngineValue) :
    resultValue? (deserialize_u64 v) = resultValue? (from_v8_u64 v) := by
  simp only [deserialize_u64, from_v8_u64, try_integer, try_int32, try_uint32,
    try_bigint_as_u64]
  rcases hI : Integer_try_from v with _ | val
  · simp only [hI, Int32_try_from_none v hI, Uint32_try_from_none v hI]
    rcases hB : BigInt_try_from v with _ | b
    · simp [hB, resultValue?]
    · simp only [hB, Option.map]
      cases hl : (BigInt_value_u64 b).2 <;>
        simp [hl, resultValue?]
  · simp only [hI]
    split <;> simp [resultValue?]

/-- Claim C10 (amended): the `Deserialize` generation and the `FromValue`
generation are extensionally equivalent on all integer target types, floats
and `String` — for every engine value both return the same native value or
both fail — and on `bool` they agree on boolean-valued inputs; but for `bool`
on non-boolean inputs they differ: `FromValue` applies the engine's ToBoolean
coercion and never fails, while `Deserialize` only accepts actual booleans. -/
theorem c10_generations_equivalent :
    (∀ v : EngineValue, resultValue? (deserialize_i8 v) = resultValue? (from_v8_i8 v)) ∧
    (∀ v : EngineValue, resultValue? (deserialize_i16 v) = resultValue? (from_v8_i16 v)) ∧
    (∀ v : EngineValue, resultValue? (deserialize_i32 v) = resultValue? (from_v8_i32 v)) ∧
    (∀ v : EngineValue, resultValue? (deserialize_i64 v) = resultValue? (from_v8_i64 v)) ∧
    (∀ v : EngineValue, resultValue? (deserialize_u8 v) = resultValue? (from_v8_u8 v)) ∧
    (∀ v : EngineValue, resultValue? (deserialize_u16 v) = resultValue? (from_v8_u16 v)) ∧
    (∀ v : EngineValue, resultValue? (deserialize_u32 v) = resultValue? (from_v8_u32 v)) ∧
    (∀ v : EngineValue, resultValue? (deserialize_u64 v) = resultValue? (from_v8_u64 v)) ∧
    (∀ (f32cast : ℚ → ℚ) (v : EngineValue),
      resultValue? (deserialize_f32 f32cast v) = resultValue? (from_v8_f32 f32cast v)) ∧
    (∀ v : EngineValue, resultValue? (deserialize_f64 v) = resultValue? (from_v8_f64 v)) ∧
    (∀ v : EngineValue, resultValue? (deserialize_String v) = resultValue? (from_v8_String v)) ∧
    (∀ b : Bool, resultValue? (deserialize_bool (.boolean b)) =
      resultValue? (from_v8_bool (.boolean b))) := by
  refine ⟨agree_i8, agree_i16, agree_i32, agree_i64, agree_u8, agree_u16, agree_u32,
    agree_u64, ?_, ?_, ?_, ?_⟩
  · intro f32cast v
    simp only [deserialize_f32, from_v8_f32, try_float]
    rcases hN : Number_try_from v with _ | q <;> simp [hN, resultValue?]
  · intro v
    simp only [deserialize_f64, from_v8_f64, try_float]
    rcases hN : Number_try_from v with _ | q <;> simp [hN, resultValue?]
  · intro v
    simp [deserialize_String, from_v8_String]
  · intro b
    cases b <;> decide

/-- Claim C10 counterexample: on the engine number `1` the `Deserialize`
generation fails with a `TypeError` while the `FromValue` generation coerces
it to `true` — the two generations are not extensionally equivalent on
`bool`. -/
theorem c10_counterexample :
    resultValue? (deserialize_bool (EngineValue.number 1)) = none ∧
    resultValue? (from_v8_bool (EngineValue.number 1)) = some true := by
  constructor <;> decide

/-! ## Claim C4 -/

/-- If every converter before position `pre.length` succeeds and the converter
at that position fails, the extraction loop stops there and reports the
engine TypeError object built from the failure. -/
theorem getArgsLoop_first_failure {α : Type}
    (pre post : List (EngineValue → Except TypeError α))
    (ck : EngineValue → Except TypeError α) (args : List EngineValue)
    (pos : Nat) (e : TypeError)
    (hpre : ∀ j (hj : j < pre.length),
      ∃ a, (pre.get ⟨j, hj⟩) (args.getD (pos + j) .undefined) = .ok a)
    (hck : ck (args.getD (pos + pre.length) .undefined) = .error e) :
    getArgsLoop (pre ++ ck :: post) args pos = .error (new_type_error e.msg) := by
  induction pre generalizing pos with
  | nil =>
      simp only [List.length_nil, Nat.add_zero] at hck
      simp only [List.nil_append, getArgsLoop, get_argument, hck]
  | cons c rest ih =>
      obtain ⟨a, ha⟩ := hpre 0 (by simp)
      simp only [List.get] at ha
      rw [Nat.add_zero] at ha
      have hck2 : ck (args.getD ((pos + 1) + rest.length) .undefined) = .error e := by
        have : (pos + 1) + rest.length = pos + (c :: rest).length := by
          simp [List.length_cons]; omega
        rw [this]
        exact hck
      have hpre2 : ∀ j (hj : j < rest.length),
          ∃ a, (rest.get ⟨j, hj⟩) (args.getD ((pos + 1) + j) .undefined) = .ok a := by
        intro j hj
        have := hpre (j + 1) (by simp; omega)
        simpa [List.get, Nat.add_assoc, Nat.add_comm 1 j] using this
      simp only [List.cons_append, getArgsLoop, get_argument, ha]
      rw [List.append_eq, ih (pos + 1) hpre2 hck2]

/-- Claim C4 (amended): when the argument at position `k` fails conversion to
its declared native type, argument extraction stops at position `k` (the
converters and arguments at later positions — `post` and anything in `args`
beyond `k` — are arbitrary and unused), the native function body is not
invoked, and the conversion failure becomes the call's normal return value:
an engine TypeError object, not a thrown exception. -/
theorem c4_argument_conversion_failure {α β : Type}
    (pre post : List (EngineValue → Except TypeError α))
    (ck : EngineValue → Except TypeError α)
    (op : List α → β) (ser : β → Except TypeError EngineValue)
    (definedReturn : Bool) (args : List EngineValue) (e : TypeError)
    (hpre : ∀ j (hj : j < pre.length),
      ∃ a, (pre.get ⟨j, hj⟩) (args.getD j .undefined) = .ok a)
    (hck : ck (args.getD pre.length .undefined) = .error e) :
    v8_func (pre ++ ck :: post) op ser definedReturn args =
      { outcome := ScriptOutcome.normal (new_type_error e.msg), bodyInvoked := false } := by
  unfold v8_func
  rw [getArgsLoop_first_failure pre post ck args 0 e (by simpa using hpre) (by simpa using hck)]

/-- Claim C4 witness: a one-argument function whose `i8` argument receives a
string; the trampoline returns the TypeError object and never runs the body. -/
theorem c4_argument_conversion_failure_witness :
    v8_func [deserialize_i8] (fun _ => (0 : Int))
        (fun n => Except.ok (Integer_new_from_i32 n)) true [EngineValue.str "x"] =
      { outcome := ScriptOutcome.normal
          (new_type_error "Value can't be converted to an i8: x")
        bodyInvoked := false } :=
  c4_argument_conversion_failure [] [] deserialize_i8 (fun _ => (0 : Int))
    (fun n => Except.ok (Integer_new_from_i32 n)) true [EngineValue.str "x"]
    ⟨"Value can't be converted to an i8: x"⟩
    (fun j hj => absurd hj (by simp)) rfl

/-- Claim C4 counterexample: the claim says the failure surfaces as a thrown
type error, but the trampoline completes normally — `rv.set` makes the
TypeError object the call's return value (outcome constructor `normal`, never
`thrown`). -/
theorem c4_counterexample :
    (v8_func [deserialize_i8] (fun _ => (0 : Int))
        (fun n => Except.ok (Integer_new_from_i32 n)) true
        [EngineValue.str "y"]).outcome =
      ScriptOutcome.normal (new_type_error "Value can't be converted to an i8: y") := by
  rfl

/-! ## Claim C5 -/

theorem runTrace_depth_one {S : Type} (p : StatefulProgram S) :
    ∀ (s st : S) (t : List Nat), runTrace p 1 s = some (st, t) → ∀ d ∈ t, d = 1 := by
  induction p with
  | act f =>
      intro s st t h d hd
      simp only [runTrace, Option.some.injEq, Prod.mk.injEq] at h
      rw [← h.2] at hd
      simpa using hd
  | seq p q ihp ihq =>
      intro s st t h d hd
      simp only [runTrace] at h
      split at h
      next s1 t1 heq1 =>
        split at h
        next s2 t2 heq2 =>
          injection h with h2
          injection h2 with ha hb
          rw [← hb] at hd
          rcases List.mem_append.mp hd with hmem | hmem
          · exact ihp s s1 t1 heq1 d hmem
          · exact ihq s1 s2 t2 heq2 d hmem
        next => cases h
      next => cases h
  | nestedCall p ih =>
      intro s st t h
      simp [runTrace] at h

/-- Claim C5: the state cell's mutable borrow is held only for the duration of
a single stateful call — whenever a native mutation runs, exactly one borrow
is outstanding — and any re-entrant nested stateful call made while the
borrow is held fails fast with the borrow-check panic (`none`) instead of
producing a second live mutable borrow.  All three dispatch paths (closure
`v8_func_with_state`, `static_function!`, `fastcall_function!`) implement
this same `RefCell::borrow_mut` discipline. -/
theorem c5_state_borrow {S : Type} :
    (∀ (p : StatefulProgram S) (s st : S) (t : List Nat),
      stateDispatch p s = some (st, t) → ∀ d ∈ t, d = 1) ∧
    (∀ (p : StatefulProgram S) (s : S), runTrace (.nestedCall p) 1 s = none) := by
  constructor
  · intro p s st t h
    have h2 : runTrace p 1 s = some (st, t) := by
      simpa [stateDispatch, runTrace] using h
    exact runTrace_depth_one p s st t h2
  · intro p s
    simp [runTrace]

/-- Claim C5 witness: a body that adds 5 to state 55 runs with exactly one
outstanding borrow; dispatching it again while a borrow is held panics. -/
theorem c5_state_borrow_witness :
    (1 : Nat) = 1 ∧
    runTrace (StatefulProgram.nestedCall (.act (fun s => s + 5))) 1 (55 : Int) = none :=
  ⟨c5_state_borrow.1 (.act (fun s => s + 5)) (55 : Int) 60 [1] (by rfl) 1 (by simp),
   c5_state_borrow.2 (.act (fun s => s + 5)) 55⟩

/-! ## Claim C6 -/

/-- Claim C6: when compilation fails with a caught exception, or compilation
succeeds and running raises a caught exception, `execute` returns the
`EcmaScript` error carrying the engine-rendered message and the line number;
when both succeed but the conversion of the result fails, it returns the
`Type` error variant. -/
theorem c6_execute_errors {α : Type} (E : EngineBehavior)
    (deser : EngineValue → Except TypeError α) (source : List UInt8) :
    (∀ exc : EngineValue, E.compile (new_string source) = .error (some exc) →
      Runtime_execute E deser source =
        .error (.ecmaScript
          ("'" ++ E.messageOf exc ++ "' in line: " ++ toString ((E.lineOf exc).getD 0)))) ∧
    (∀ (script : List UInt8) (exc : EngineValue),
      E.compile (new_string source) = .ok script → E.run script = .error (some exc) →
      Runtime_execute E deser source =
        .error (.ecmaScript
          ("'" ++ E.messageOf exc ++ "' in line: " ++ toString ((E.lineOf exc).getD 0)))) ∧
    (∀ (script : List UInt8) (v : EngineValue) (te : TypeError),
      E.compile (new_string source) = .ok script → E.run script = .ok v →
      deser v = .error te →
      Runtime_execute E deser source = .error (.type te)) := by
  refine ⟨?_, ?_, ?_⟩
  · intro exc h
    simp [Runtime_execute, h, create_error_from_exception]
  · intro script exc h1 h2
    simp [Runtime_execute, h1, h2, create_error_from_exception]
  · intro script v te h1 h2 h3
    simp [Runtime_execute, h1, h2, h3]

/-- A concrete engine behaviour used to witness the execution-entry-point
claims. -/
def witnessEngine : EngineBehavior where
  compile := fun src => if src = [1] then .error (some (.str "boom")) else .ok src
  run := fun scr => if scr = [2] then .error (some (.str "crash")) else .ok (.integer 7)
  messageOf := fun v => jsRender v
  lineOf := fun _ => some 3

/-- Claim C6 witness: a compile failure, a run failure and a conversion
failure each surface as the claimed error variant. -/
theorem c6_execute_errors_witness :
    Runtime_execute witnessEngine deserialize_i64 [1] =
      .error (.ecmaScript "'boom' in line: 3") ∧
    Runtime_execute witnessEngine deserialize_i64 [2] =
      .error (.ecmaScript "'crash' in line: 3") ∧
    Runtime_execute witnessEngine deserialize_bool [3] =
      .error (.type (create_type_error "Value can't be converted to an i8"
        (EngineValue.integer 7))) :=
  ⟨(c6_execute_errors witnessEngine deserialize_i64 [1]).1 (.str "boom") (by rfl),
   (c6_execute_errors witnessEngine deserialize_i64 [2]).2.1 [2] (.str "crash")
     (by rfl) (by rfl),
   (c6_execute_errors witnessEngine deserialize_bool [3]).2.2 [3] (.integer 7)
     (create_type_error "Value can't be converted to an i8" (.integer 7))
     (by rfl) (by rfl) (by rfl)⟩

/-! ## Claim C9 -/

theorem new_string_length (s : List UInt8) :
    (new_string s).length = min s.length MAX_STRING_LENGTH := by
  simp only [new_string, List.length_take]
  omega

theorem new_string_short (s : List UInt8) (h : s.length ≤ MAX_STRING_LENGTH) :
    new_string s = s := by
  unfold new_string
  have : min MAX_STRING_LENGTH s.length = s.length := by omega
  rw [this, List.take_length]

theorem new_string_idem (s : List UInt8) : new_string (new_string s) = new_string s := by
  apply new_string_short
  rw [new_string_length]
  omega

/-- Claim C9: the engine string built from the source consists of exactly the
first `min(length, MAX_STRING_LENGTH)` bytes of the source; a source within
the limit is passed through unchanged, and executing a source is identical to
executing its truncation — the truncation itself never produces an error. -/
theorem c9_source_truncation {α : Type} (E : EngineBehavior)
    (deser : EngineValue → Except TypeError α) :
    (∀ s : List UInt8, new_string s = s.take (min s.length MAX_STRING_LENGTH)) ∧
    (∀ s : List UInt8, (new_string s).length = min s.length MAX_STRING_LENGTH) ∧
    (∀ s : List UInt8, s.length ≤ MAX_STRING_LENGTH → new_string s = s) ∧
    (∀ s : List UInt8, Runtime_execute E deser s = Runtime_execute E deser (new_string s)) := by
  refine ⟨?_, new_string_length, new_string_short, ?_⟩
  · intro s
    unfold new_string
    rw [Nat.min_comm]
  · intro s
    simp only [Runtime_execute, new_string_idem]

/-- Claim C9 witness: a short source is passed through unchanged and executes
identically to its (identity) truncation. -/
theorem c9_source_truncation_witness :
    new_string [7, 8] = [7, 8] ∧
    Runtime_execute witnessEngine deserialize_i64 [9] =
      Runtime_execute witnessEngine deserialize_i64 (new_string [9]) :=
  ⟨(c9_source_truncation witnessEngine deserialize_i64).2.2.1 [7, 8] (by decide),
   (c9_source_truncation witnessEngine deserialize_i64).2.2.2 [9]⟩

/-! ## Map lemmas for the registry and builder claims -/

theorem mapLookup_insert_self {β : Type} (m : List (String × β)) (k : String) (v : β) :
    mapLookup (mapInsert m k v) k = some v := by
  induction m with
  | nil => simp [mapInsert, mapLookup]
  | cons kv rest ih =>
      obtain ⟨k', v'⟩ := kv
      by_cases h : k' = k
      · simp [mapInsert, h, mapLookup]
      · simp [mapInsert, h, mapLookup, ih]

theorem mapLookup_insert_ne {β : Type} (m : List (String × β)) (k k' : String) (v : β)
    (h : k' ≠ k) : mapLookup (mapInsert m k v) k' = mapLookup m k' := by
  have hkk : ¬(k = k') := fun h2 => h h2.symm
  induction m with
  | nil => simp [mapInsert, mapLookup, hkk]
  | cons kv rest ih =>
      obtain ⟨a, b⟩ := kv
      by_cases ha : a = k
      · subst ha
        simp [mapInsert, mapLookup, hkk]
      · simp [mapInsert, ha, mapLookup, ih]

theorem mapLookup_insert_cases {β : Type} (m : List (String × β)) (k k' : String)
    (v w : β) (h : mapLookup (mapInsert m k v) k' = some w) :
    (k' = k ∧ w = v) ∨ mapLookup m k' = some w := by
  by_cases hk : k' = k
  · subst hk
    rw [mapLookup_insert_self] at h
    injection h with h2
    exact Or.inl ⟨rfl, h2.symm⟩
  · rw [mapLookup_insert_ne m k k' v hk] at h
    exact Or.inr h

theorem countKey_cons {β : Type} (a : String) (b : β) (rest : List (String × β))
    (k : String) :
    countKey ((a, b) :: rest) k = (if a = k then 1 else 0) + countKey rest k := by
  simp only [countKey, List.filter]
  by_cases ha : a = k
  · simp [ha]
    omega
  · simp [ha]

theorem countKey_eq_zero {β : Type} (m : List (String × β)) (k : String)
    (h : k ∉ m.map Prod.fst) : countKey m k = 0 := by
  induction m with
  | nil => rfl
  | cons kv rest ih =>
      obtain ⟨a, b⟩ := kv
      simp only [List.map_cons, List.mem_cons] at h
      push_neg at h
      rw [countKey_cons, if_neg (fun hc => h.1 hc.symm), ih h.2]

theorem countKey_mapInsert {β : Type} (m : List (String × β)) (k : String) (v : β) :
    countKey (mapInsert m k v) k = if countKey m k = 0 then 1 else countKey m k := by
  induction m with
  | nil => simp [mapInsert, countKey_cons, countKey]
  | cons kv rest ih =>
      obtain ⟨a, b⟩ := kv
      by_cases ha : a = k
      · subst ha
        have h1 : mapInsert ((a, b) :: rest) a v = (a, v) :: rest := by simp [mapInsert]
        rw [h1]
        simp only [countKey_cons]
        split_ifs <;> omega
      · have h1 : mapInsert ((a, b) :: rest) k v = (a, b) :: mapInsert rest k v := by
          simp [mapInsert, ha]
        rw [h1]
        simp only [countKey_cons, ih, if_neg ha]
        split_ifs <;> omega

theorem countKey_le_one_of_nodup {β : Type} (m : List (String × β))
    (h : (m.map Prod.fst).Nodup) (k : String) : countKey m k ≤ 1 := by
  induction m with
  | nil => simp [countKey]
  | cons kv rest ih =>
      obtain ⟨a, b⟩ := kv
      simp only [List.map_cons, List.nodup_cons] at h
      rw [countKey_cons]
      by_cases ha : a = k
      · subst ha
        rw [countKey_eq_zero rest a h.1]
        simp
      · rw [if_neg ha]
        have := ih h.2
        omega

theorem mapLookup_mem {β : Type} (m : List (String × β)) (k : String) (v : β)
    (h : mapLookup m k = some v) : (k, v) ∈ m := by
  induction m with
  | nil => cases h
  | cons kv rest ih =>
      obtain ⟨a, b⟩ := kv
      simp only [mapLookup] at h
      split at h
      next ha =>
        injection h with h2
        subst ha h2
        exact List.mem_cons_self _ _
      next => exact List.mem_cons_of_mem _ (ih h)

theorem mapInsert_append_new {β : Type} (m : List (String × β)) (k : String) (v : β)
    (h : ∀ p ∈ m, p.1 ≠ k) : mapInsert m k v = m ++ [(k, v)] := by
  induction m with
  | nil => simp [mapInsert]
  | cons kv rest ih =>
      obtain ⟨a, b⟩ := kv
      have ha : a ≠ k := h (a, b) (List.mem_cons_self _ _)
      simp only [mapInsert, if_neg ha, List.cons_append, List.cons.injEq, true_and]
      exact ih (fun p hp => h p (List.mem_cons_of_mem _ hp))

theorem foldl_insert_eq_append (decls : List (String × FunctionDeclaration)) :
    ∀ acc : List (String × FunctionDeclaration),
    (decls.map Prod.fst).Nodup →
    (∀ p ∈ acc, p.1 ∉ decls.map Prod.fst) →
    decls.foldl (fun m nd => mapInsert m nd.1 nd.2) acc = acc ++ decls := by
  induction decls with
  | nil => simp
  | cons nd rest ih =>
      intro acc hnodup hdisj
      simp only [List.map_cons, List.nodup_cons] at hnodup
      simp only [List.foldl_cons]
      have hnew : ∀ p ∈ acc, p.1 ≠ nd.1 := by
        intro p hp
        have := hdisj p hp
        simp only [List.map_cons, List.mem_cons] at this
        exact fun hc => this (Or.inl hc)
      rw [mapInsert_append_new acc nd.1 nd.2 hnew]
      rw [ih (acc ++ [nd]) hnodup.2 ?_]
      · simp
      · intro p hp
        rcases List.mem_append.mp hp with hp2 | hp2
        · have := hdisj p hp2
          simp only [List.map_cons, List.mem_cons] at this
          exact fun hc => this (Or.inr hc)
        · simp only [List.mem_singleton] at hp2
          subst hp2
          exact hnodup.1

theorem buildNsObject_nodup (decls : List (String × FunctionDeclaration))
    (h : (decls.map Prod.fst).Nodup) : buildNsObject decls = decls := by
  unfold buildNsObject
  rw [foldl_insert_eq_append decls [] h (by simp)]
  simp

theorem nsFold_lookup (decls : List (String × FunctionDeclaration)) :
    ∀ (acc : List (String × FunctionDeclaration)) (n : String) (d : FunctionDeclaration),
    mapLookup (decls.foldl (fun m nd => mapInsert m nd.1 nd.2) acc) n = some d →
    mapLookup acc n = some d ∨ (n, d) ∈ decls := by
  induction decls with
  | nil => intro acc n d h; exact Or.inl h
  | cons nd rest ih =>
      intro acc n d h
      simp only [List.foldl_cons] at h
      rcases ih (mapInsert acc nd.1 nd.2) n d h with hacc | hmem
      · rcases mapLookup_insert_cases acc nd.1 n nd.2 d hacc with ⟨hk, hv⟩ | hm
        · right
          subst hk hv
          exact List.mem_cons_self _ _
        · exact Or.inl hm
      · exact Or.inr (List.mem_cons_of_mem _ hmem)

theorem buildNsObject_lookup_mem (decls : List (String × FunctionDeclaration))
    (n : String) (d : FunctionDeclaration)
    (h : mapLookup (buildNsObject decls) n = some d) : (n, d) ∈ decls := by
  rcases nsFold_lookup decls [] n d h with hacc | hmem
  · cases hacc
  · exact hmem

theorem installDecls_lookup (decls : List (String × FunctionDeclaration)) :
    ∀ (m : List (String × GlobalSlot)) (n : String) (slot : GlobalSlot),
    mapLookup (installDecls decls m) n = some slot →
    mapLookup m n = some slot ∨
      ∃ fd, slot = .func fd ∧ (n, fd) ∈ decls := by
  induction decls with
  | nil => intro m n slot h; exact Or.inl h
  | cons nd rest ih =>
      intro m n slot h
      simp only [installDecls, List.foldl_cons] at h
      rcases ih (mapInsert m nd.1 (.func nd.2)) n slot h with hacc | ⟨fd, hfd, hmem⟩
      · rcases mapLookup_insert_cases m nd.1 n (.func nd.2) slot hacc with ⟨hk, hv⟩ | hm
        · right
          subst hk hv
          exact ⟨nd.2, rfl, List.mem_cons_self _ _⟩
        · exact Or.inl hm
      · exact Or.inr ⟨fd, hfd, List.mem_cons_of_mem _ hmem⟩

theorem tmplFold_lookup (exts : List Extension) :
    ∀ (acc : List (String × GlobalSlot)) (n : String) (slot : GlobalSlot),
    mapLookup
        (exts.foldl
          (fun m e => if e.nspace = none then installDecls e.declarations m else m) acc)
        n = some slot →
    mapLookup acc n = some slot ∨
      ∃ e, e ∈ exts ∧ e.nspace = none ∧
        ∃ fd, slot = .func fd ∧ (n, fd) ∈ e.declarations := by
  induction exts with
  | nil => intro acc n slot h; exact Or.inl h
  | cons e rest ih =>
      intro acc n slot h
      simp only [List.foldl_cons] at h
      by_cases hns : e.nspace = none
      · rw [if_pos hns] at h
        rcases ih (installDecls e.declarations acc) n slot h with hacc | ⟨e2, he2, hn2, hex⟩
        · rcases installDecls_lookup e.declarations acc n slot hacc with hm | ⟨fd, hfd, hmem⟩
          · exact Or.inl hm
          · exact Or.inr ⟨e, List.mem_cons_self _ _, hns, fd, hfd, hmem⟩
        · exact Or.inr ⟨e2, List.mem_cons_of_mem _ he2, hn2, hex⟩
      · rw [if_neg hns] at h
        rcases ih acc n slot h with hacc | ⟨e2, he2, hn2, hex⟩
        · exact Or.inl hacc
        · exact Or.inr ⟨e2, List.mem_cons_of_mem _ he2, hn2, hex⟩

theorem installGlobalTemplate_lookup (exts : List Extension) (n : String) (slot : GlobalSlot)
    (h : mapLookup (installGlobalTemplate exts) n = some slot) :
    ∃ e, e ∈ exts ∧ e.nspace = none ∧
      ∃ fd, slot = .func fd ∧ (n, fd) ∈ e.declarations := by
  rcases tmplFold_lookup exts [] n slot h with hacc | hex
  · cases hacc
  · exact hex

theorem installNamespaces_lookup_func (exts : List Extension) :
    ∀ (g : List (String × GlobalSlot)) (n : String) (fd : FunctionDeclaration),
    mapLookup (installNamespaces exts g) n = some (.func fd) →
    mapLookup g n = some (.func fd) := by
  induction exts with
  | nil => intro g n fd h; exact h
  | cons e rest ih =>
      intro g n fd h
      simp only [installNamespaces, List.foldl_cons] at h
      cases hns : e.nspace with
      | none =>
          rw [hns] at h
          exact ih g n fd h
      | some ns =>
          rw [hns] at h
          have h2 := ih _ n fd h
          rcases mapLookup_insert_cases g ns n _ _ h2 with ⟨hk, hv⟩ | hm
          · cases hv
          · exact hm

theorem installNamespaces_lookup_ns (exts : List Extension) :
    ∀ (g : List (String × GlobalSlot)) (ns : String)
      (mns : List (String × FunctionDeclaration)),
    mapLookup (installNamespaces exts g) ns = some (.nsObject mns) →
    mapLookup g ns = some (.nsObject mns) ∨
      ∃ e, e ∈ exts ∧ e.nspace = some ns ∧ mns = buildNsObject e.declarations := by
  induction exts with
  | nil => intro g ns mns h; exact Or.inl h
  | cons e rest ih =>
      intro g ns mns h
      simp only [installNamespaces, List.foldl_cons] at h
      cases hns : e.nspace with
      | none =>
          rw [hns] at h
          rcases ih g ns mns h with hg | ⟨e2, he2, hn2, hm2⟩
          · exact Or.inl hg
          · exact Or.inr ⟨e2, List.mem_cons_of_mem _ he2, hn2, hm2⟩
      | some ns2 =>
          rw [hns] at h
          rcases ih _ ns mns h with hg | ⟨e2, he2, hn2, hm2⟩
          · rcases mapLookup_insert_cases g ns2 ns _ _ hg with ⟨hk, hv⟩ | hm
            · subst hk
              injection hv with hv2
              exact Or.inr ⟨e, List.mem_cons_self _ _, hns, hv2⟩
            · exact Or.inl hm
          · exact Or.inr ⟨e2, List.mem_cons_of_mem _ he2, hn2, hm2⟩

theorem installNamespaces_skip (ns : String) :
    ∀ (exts : List Extension), (∀ e ∈ exts, e.nspace ≠ some ns) →
    ∀ g : List (String × GlobalSlot),
    mapLookup (installNamespaces exts g) ns = mapLookup g ns := by
  intro exts
  induction exts with
  | nil => intro h g; rfl
  | cons e rest ih =>
      intro h g
      cases hns : e.nspace with
      | none =>
          simp only [installNamespaces, List.foldl_cons, hns]
          exact ih (fun e2 he2 => h e2 (List.mem_cons_of_mem _ he2)) g
      | some ns2 =>
          have hne : ns ≠ ns2 := fun hc => h e (List.mem_cons_self _ _) (hc ▸ hns)
          have hstep : installNamespaces (e :: rest) g =
              installNamespaces rest
                (mapInsert g ns2 (.nsObject (buildNsObject e.declarations))) := by
            simp only [installNamespaces, List.foldl_cons, hns]
          rw [hstep, ih (fun e2 he2 => h e2 (List.mem_cons_of_mem _ he2))
            (mapInsert g ns2 (.nsObject (buildNsObject e.declarations)))]
          exact mapLookup_insert_ne g ns2 ns _ hne

/-! ## Claim C8 -/

/-- Claim C8: registering a second function under an already-used name, via
any combination of the four registration entry points, replaces the prior
entry — afterwards the declaration map holds exactly one declaration for that
name, the last one registered. -/
theorem c8_last_write_wins (e : Extension) (hk : (e.declarations.map Prod.fst).Nodup)
    (k1 k2 : AddKind) (name : String) (id1 id2 : Nat) :
    mapLookup (applyAdd (applyAdd e k1 name id1) k2 name id2).declarations name =
      some (declOf k2 id2) ∧
    countKey (applyAdd (applyAdd e k1 name id1) k2 name id2).declarations name = 1 := by
  have hdecl : ∀ (e' : Extension) (k : AddKind) (id : Nat),
      (applyAdd e' k name id).declarations = mapInsert e'.declarations name (declOf k id) := by
    intro e' k id
    cases k <;> rfl
  rw [hdecl, hdecl]
  refine ⟨mapLookup_insert_self _ _ _, ?_⟩
  rw [countKey_mapInsert, countKey_mapInsert]
  have hle := countKey_le_one_of_nodup e.declarations hk name
  split_ifs <;> omega

/-- Claim C8 witness: a closure registration followed by a fastcall
registration under the same name leaves exactly the fastcall declaration. -/
theorem c8_last_write_wins_witness :
    mapLookup
        ((((Extension.new none).add_function "f" 1).add_fastcall_function "f" 2).declarations)
        "f" = some (.fastcall 2) ∧
    countKey
        ((((Extension.new none).add_function "f" 1).add_fastcall_function "f" 2).declarations)
        "f" = 1 :=
  c8_last_write_wins (Extension.new none) (by decide) .function .fastcall "f" 1 2

/-! ## Claim C7 -/

/-- Claim C7: a function registered in an Extension with namespace `"test"`
(the last extension declaring that namespace) is installed exactly on the
namespace object bound to the global name `"test"`, and — when its
declaration is not also registered by a namespace-free extension — it is not
visible as a bare global: every bare-global function binding originates from
a namespace-free extension, and no function of a namespace-free extension
(one whose declaration no namespaced extension registers) appears under any
namespace object. -/
theorem c7_namespace_isolation (pre post : List Extension) (ext : Extension)
    (hns : ext.nspace = some "test")
    (hnodup : (ext.declarations.map Prod.fst).Nodup)
    (hpost : ∀ e ∈ post, e.nspace ≠ some "test")
    (fname : String) (d : FunctionDeclaration)
    (hmem : mapLookup ext.declarations fname = some d)
    (hfresh : ∀ e ∈ pre ++ ext :: post, e.nspace = none →
      ∀ n : String, (n, d) ∉ e.declarations) :
    mapLookup (Runtime_new_globals (pre ++ ext :: post)) "test" =
      some (.nsObject (buildNsObject ext.declarations)) ∧
    mapLookup (buildNsObject ext.declarations) fname = some d ∧
    (∀ slot, mapLookup (Runtime_new_globals (pre ++ ext :: post)) fname = some slot →
      slot ≠ .func d) ∧
    (∀ (n : String) (d' : FunctionDeclaration),
      mapLookup (Runtime_new_globals (pre ++ ext :: post)) n = some (.func d') →
      ∃ e, e ∈ pre ++ ext :: post ∧ e.nspace = none ∧ (n, d') ∈ e.declarations) ∧
    (∀ gd : FunctionDeclaration,
      (∀ e ∈ pre ++ ext :: post, ∀ (ns n : String), e.nspace = some ns →
        (n, gd) ∉ e.declarations) →
      ∀ (ns n : String) (mns : List (String × FunctionDeclaration)),
        mapLookup (Runtime_new_globals (pre ++ ext :: post)) ns = some (.nsObject mns) →
        mapLookup mns n ≠ some gd) := by
  have hsplit : Runtime_new_globals (pre ++ ext :: post) =
      installNamespaces post
        (mapInsert (installNamespaces pre (installGlobalTemplate (pre ++ ext :: post)))
          "test" (.nsObject (buildNsObject ext.declarations))) := by
    unfold Runtime_new_globals installNamespaces
    rw [List.foldl_append]
    simp only [List.foldl_cons, hns]
  refine ⟨?_, ?_, ?_, ?_, ?_⟩
  · rw [hsplit, installNamespaces_skip "test" post hpost]
    exact mapLookup_insert_self _ _ _
  · rw [buildNsObject_nodup ext.declarations hnodup]
    exact hmem
  · intro slot hlook heq
    subst heq
    have htmpl := installNamespaces_lookup_func (pre ++ ext :: post) _ fname d hlook
    obtain ⟨e, he, hen, fd, hfd, hmem2⟩ :=
      installGlobalTemplate_lookup (pre ++ ext :: post) fname _ htmpl
    injection hfd with hfd2
    exact hfresh e he hen fname (hfd2 ▸ hmem2)
  · intro n d' hlook
    have htmpl := installNamespaces_lookup_func (pre ++ ext :: post) _ n d' hlook
    obtain ⟨e, he, hen, fd, hfd, hmem2⟩ :=
      installGlobalTemplate_lookup (pre ++ ext :: post) n _ htmpl
    injection hfd with hfd2
    exact ⟨e, he, hen, hfd2 ▸ hmem2⟩
  · intro gd hgfresh ns n mns hlook hinner
    rcases installNamespaces_lookup_ns (pre ++ ext :: post) _ ns mns hlook with
      htmpl | ⟨e, he, hen, hm⟩
    · obtain ⟨e, he, hen, fd, hfd, hmem2⟩ :=
        installGlobalTemplate_lookup (pre ++ ext :: post) ns _ htmpl
      cases hfd
    · subst hm
      have hmem3 := buildNsObject_lookup_mem e.declarations n gd hinner
      exact hgfresh e he ns n hen hmem3

/-- Concrete extensions for the builder witness: a global and a namespaced
registration of the same function name. -/
def gExt : Extension := (Extension.new none).add_function "fn" 2

def tExt : Extension := (Extension.new (some "test")).add_function "fn" 1

/-- Claim C7 witness: the namespaced function is reachable exactly through
the `"test"` namespace object. -/
theorem c7_namespace_isolation_witness :
    mapLookup (Runtime_new_globals ([gExt] ++ tExt :: [])) "test" =
      some (.nsObject (buildNsObject tExt.declarations)) ∧
    mapLookup (buildNsObject tExt.declarations) "fn" = some (.closure 1) := by
  have h := c7_namespace_isolation [gExt] [] tExt rfl (by decide) (by simp) "fn"
    (.closure 1) (by decide)
    (by
      intro e he hn n hmemX
      simp only [List.cons_append, List.nil_append, List.mem_cons,
        List.not_mem_nil, or_false] at he
      rcases he with he | he
      · subst he
        simp [gExt, Extension.new, Extension.add_function, mapInsert] at hmemX
      · subst he
        simp [tExt, Extension.new, Extension.add_function] at hn)
  exact ⟨h.1, h.2.1⟩

end Kopi
